import Mathlib

/-!
Shallow embedding of the StelloVault off-chain bookkeeping core:
challenge-response authentication and multi-wallet linking
(src/server/src/services/auth.service.ts), the escrow status state
machine with its timeout sweep (escrow service), and the loan service
with exact-decimal repayments (loan service).

Conventions of the embedding:
* Database tables become Lean lists kept in creation order (`createdAt`
  ascending), so Prisma's `orderBy: { createdAt: "asc" }` over a table
  is the list itself and a `create` is an append.
* Timestamps are naturals (epoch milliseconds).
* Monetary amounts handled through decimal.js become `ℚ`; at the scales
  exercised here decimal.js arithmetic (plus, minus, div, comparisons)
  is exact, so rationals model it faithfully.
* Fallible service methods return `Except Err α`.  All Prisma writes of
  a method either happen inside one `$transaction` (auth, loans) or are
  a single conditional `updateMany` whose failure means zero rows were
  written (escrow), so an `.error` result coincides with "the store is
  unchanged".
* Stellar SDK calls (`Keypair.fromPublicKey`, ed25519 `verify`),
  `crypto.randomBytes` and the signature hex/base64 decoding are
  abstracted into a `CryptoEnv` record of oracles; nothing proved here
  depends on their implementation.
-/

namespace StelloVault

/-- Error taxonomy mirroring the error classes of
`src/server/src/config/errors.ts`. -/
inductive Err where
  | notFound (msg : String)
  | unauthorized (msg : String)
  | forbidden (msg : String)
  | conflict (msg : String)
  | validation (msg : String)
  deriving DecidableEq, Repr

/-- The `name` field each error class sets on itself in errors.ts. -/
def Err.className : Err → String
  | .notFound _ => "NotFoundError"
  | .unauthorized _ => "UnauthorizedError"
  | .forbidden _ => "ForbiddenError"
  | .conflict _ => "ConflictError"
  | .validation _ => "ValidationError"

/-- `CHALLENGE_PURPOSE` from auth.service.ts. -/
inductive ChallengePurpose where
  | LOGIN
  | LINK_WALLET
  deriving DecidableEq, Repr

/-- A `WalletChallenge` row.  `usedAt = none` is SQL NULL. -/
structure Challenge where
  walletAddress : String
  nonce : String
  purpose : ChallengePurpose
  userId : Option String
  expiresAt : Nat
  usedAt : Option Nat
  deriving DecidableEq, Repr

/-- A `User` row (the fields the auth service touches). -/
structure User where
  id : String
  stellarAddress : String
  deriving DecidableEq, Repr

/-- A `Wallet` row. -/
structure Wallet where
  id : String
  userId : String
  address : String
  isPrimary : Bool
  label : Option String
  createdAt : Nat
  deriving DecidableEq, Repr

/-- The slice of the relational store the auth service reads and
writes: users, wallets and wallet challenges. -/
structure AuthStore where
  users : List User
  wallets : List Wallet
  challenges : List Challenge
  deriving DecidableEq, Repr

/-- Oracles for the calls the embedding cannot compute: Stellar public
key well-formedness (`Keypair.fromPublicKey`), ed25519 signature
verification (`Keypair.verify` on the message bytes), the 64-byte
hex/base64 signature decoding of `decodeSignature`, and
`crypto.randomBytes`. -/
structure CryptoEnv where
  isValidStellarAddress : String → Bool
  decodeSignature : String → Option (List Nat)
  verify : String → String → List Nat → Bool
  randomBytes : Nat → List Nat

/-- `CHALLENGE_TTL_MS = 10 * 60 * 1000`. -/
def CHALLENGE_TTL_MS : Nat := 10 * 60 * 1000

/-- JavaScript truthiness of an optional string (`if (userId)`):
`undefined` and the empty string are falsy. -/
def jsTruthy : Option String → Bool
  | none => false
  | some s => s ≠ ""

/-- JavaScript `String.prototype.trim()`, written over the character
list so that it evaluates by kernel reduction (Lean core's
`String.trim` is definitionally opaque). -/
def jsTrim (s : String) : String :=
  String.mk (((s.data.dropWhile Char.isWhitespace).reverse.dropWhile Char.isWhitespace).reverse)

/-- JavaScript `String.prototype.toUpperCase()` over the character
list, for the same reason. -/
def jsToUpper (s : String) : String :=
  String.mk (s.data.map Char.toUpper)

/-- `buildChallengeMessage`. -/
def buildChallengeMessage (purpose : ChallengePurpose) (nonce : String) : String :=
  let action := match purpose with
    | .LOGIN => "login"
    | .LINK_WALLET => "link-wallet"
  "stellovault:" ++ action ++ ":" ++ nonce

/-- Lower-case hex digit, as `Buffer.toString("hex")` produces. -/
def hexDigit (n : Nat) : Char :=
  if n < 10 then Char.ofNat (48 + n) else Char.ofNat (87 + n)

/-- Hex-encode a byte list (`Buffer.from(bytes).toString("hex")`). -/
def bytesToHex (bytes : List Nat) : String :=
  String.mk (bytes.foldr (fun b acc => hexDigit (b / 16 % 16) :: hexDigit (b % 16) :: acc) [])

/-- The `where` predicate of the atomic consume in
`verifyAndConsumeChallenge`: same address, nonce and purpose, not yet
used, not yet expired, and matching `userId` when one was supplied
(a falsy `userId` adds no constraint, as in the source). -/
def challengeMatches (c : Challenge) (address nonce : String)
    (purpose : ChallengePurpose) (now : Nat) (userId : Option String) : Bool :=
  c.walletAddress == address && c.nonce == nonce && c.purpose == purpose &&
    c.usedAt == none && decide (now < c.expiresAt) &&
    (if jsTruthy userId then c.userId == userId else true)

/-- `AuthService.verifyAndConsumeChallenge`: recompute the canonical
message, verify the signature, then atomically consume the challenge
via a conditional `updateMany` that must affect exactly one row. -/
def verifyAndConsumeChallenge (env : CryptoEnv) (s : AuthStore)
    (address nonce signature : String) (purpose : ChallengePurpose)
    (userId : Option String) (now : Nat) : Except Err AuthStore :=
  if jsTrim nonce = "" then .error (.validation "nonce is required")
  else
    let normalizedNonce := jsTrim nonce
    let message := buildChallengeMessage purpose normalizedNonce
    match env.decodeSignature signature with
    | none => .error (.validation "Signature must be a 64-byte hex or base64 value")
    | some signatureBytes =>
      if !env.verify address message signatureBytes then
        .error (.unauthorized "Invalid signature")
      else
        let count :=
          (s.challenges.filter
            (fun c => challengeMatches c address normalizedNonce purpose now userId)).length
        let challenges' := s.challenges.map
          (fun c => if challengeMatches c address normalizedNonce purpose now userId
            then { c with usedAt := some now } else c)
        if count ≠ 1 then .error (.unauthorized "Invalid or expired challenge")
        else .ok { s with challenges := challenges' }

/-- `AuthService.generateChallenge` return shape. -/
structure ChallengeIssued where
  nonce : String
  expiresAt : Nat
  message : String
  deriving DecidableEq, Repr

/-- `AuthService.generateChallenge`: normalize and validate the
address, require a `userId` for LINK_WALLET, draw a 24-byte random
nonce, hex-encode it, and persist a fresh unused challenge row expiring
`CHALLENGE_TTL_MS` from now. -/
def generateChallenge (env : CryptoEnv) (s : AuthStore) (address : String)
    (purpose : ChallengePurpose) (userId : Option String) (now : Nat) :
    Except Err (AuthStore × ChallengeIssued) :=
  if jsTrim address = "" then .error (.validation "walletAddress is required")
  else
    let normalizedAddress := jsToUpper (jsTrim address)
    if !env.isValidStellarAddress normalizedAddress then
      .error (.validation "Invalid Stellar wallet address")
    else if purpose == .LINK_WALLET && !jsTruthy userId then
      .error (.validation "userId is required for wallet linking challenges")
    else
      let nonce := bytesToHex (env.randomBytes 24)
      let expiresAt := now + CHALLENGE_TTL_MS
      let row : Challenge :=
        { walletAddress := normalizedAddress, nonce, purpose,
          userId := userId, expiresAt, usedAt := none }
      .ok ({ s with challenges := s.challenges ++ [row] },
        { nonce, expiresAt, message := buildChallengeMessage purpose nonce })

/-- `AuthService.lockUserRow`: `SELECT ... FOR UPDATE` on the user row;
`NotFoundError` when the user does not exist.  (The lock itself is the
transaction-serialization device; in this sequential embedding only the
existence check remains.) -/
def lockUserRow (s : AuthStore) (userId : String) : Except Err User :=
  match s.users.find? (fun u => u.id == userId) with
  | none => .error (.notFound "User not found")
  | some u => .ok u

/-- The wallets of one user, in creation order (`findMany` with
`orderBy createdAt asc`). -/
def userWallets (s : AuthStore) (userId : String) : List Wallet :=
  s.wallets.filter (fun w => w.userId == userId)

/-- `label?.trim() || null`. -/
def normalizeLabel : Option String → Option String
  | none => none
  | some l => if jsTrim l = "" then none else some (jsTrim l)

/-- `AuthService.linkWallet`: inside one transaction, lock the user
row, reject an address already linked or already some other user's
denormalized address, verify and consume the LINK_WALLET challenge,
then create the wallet — primary exactly when the user had no wallet —
and, if primary, denormalize its address onto the user.  The trailing
`catch` mapping a store uniqueness violation (P2002) to `ConflictError`
appears here as the duplicate-id/address guard on the create. -/
def linkWallet (env : CryptoEnv) (s : AuthStore)
    (userId address nonce signature : String) (label : Option String)
    (newWalletId : String) (now : Nat) : Except Err (AuthStore × Wallet) :=
  if jsTrim address = "" then .error (.validation "walletAddress is required")
  else
    let normalizedAddress := jsToUpper (jsTrim address)
    if !env.isValidStellarAddress normalizedAddress then
      .error (.validation "Invalid Stellar wallet address")
    else
      match lockUserRow s userId with
      | .error e => .error e
      | .ok _ =>
        if (s.wallets.find? (fun w => w.address == normalizedAddress)).isSome then
          .error (.conflict "Wallet address is already linked")
        else
          match s.users.find? (fun u => u.stellarAddress == normalizedAddress) with
          | some owner =>
            if owner.id ≠ userId then .error (.conflict "Wallet address is already linked")
            else linkWalletAfterChecks env s userId normalizedAddress nonce signature label
              newWalletId now
          | none => linkWalletAfterChecks env s userId normalizedAddress nonce signature label
              newWalletId now
where
  linkWalletAfterChecks (env : CryptoEnv) (s : AuthStore)
      (userId normalizedAddress nonce signature : String) (label : Option String)
      (newWalletId : String) (now : Nat) : Except Err (AuthStore × Wallet) :=
    match verifyAndConsumeChallenge env s normalizedAddress nonce signature
        .LINK_WALLET (some userId) now with
    | .error e => .error e
    | .ok s1 =>
      let walletCount := (s1.wallets.filter (fun w => w.userId == userId)).length
      let isPrimary := walletCount == 0
      if (s1.wallets.find? (fun w =>
          w.id == newWalletId || w.address == normalizedAddress)).isSome then
        .error (.conflict "Wallet address is already linked")
      else
        let createdWallet : Wallet :=
          { id := newWalletId, userId, address := normalizedAddress,
            isPrimary, label := normalizeLabel label, createdAt := now }
        let s2 : AuthStore := { s1 with wallets := s1.wallets ++ [createdWallet] }
        let s3 :=
          if isPrimary then
            { s2 with users := s2.users.map (fun u =>
                if u.id == userId then { u with stellarAddress := normalizedAddress } else u) }
          else s2
        .ok (s3, createdWallet)

/-- `AuthService.unlinkWallet`: lock the user row, locate the wallet
among the user's wallets, refuse to remove the only wallet, and when
removing the primary first promote a replacement (the first other
wallet in creation order) and re-denormalize the user's address, all
before the delete, inside the one transaction. -/
def unlinkWallet (s : AuthStore) (userId walletId : String) : Except Err AuthStore :=
  match lockUserRow s userId with
  | .error e => .error e
  | .ok _ =>
    let wallets := userWallets s userId
    match wallets.find? (fun w => w.id == walletId) with
    | none => .error (.notFound "Wallet not found")
    | some wallet =>
      if wallets.length ≤ 1 then .error (.validation "Cannot unlink the only wallet")
      else if wallet.isPrimary then
        match wallets.find? (fun w => w.id != walletId) with
        | none => .error (.validation "Cannot unlink the only primary wallet")
        | some replacement =>
          let s1 : AuthStore := { s with wallets := s.wallets.map (fun w =>
              if w.userId == userId then { w with isPrimary := false } else w) }
          let s2 : AuthStore := { s1 with wallets := s1.wallets.map (fun w =>
              if w.id == replacement.id then { w with isPrimary := true } else w) }
          let s3 : AuthStore := { s2 with users := s2.users.map (fun u =>
              if u.id == userId then { u with stellarAddress := replacement.address } else u) }
          .ok { s3 with wallets := s3.wallets.filter (fun w => !(w.id == walletId)) }
      else
        .ok { s with wallets := s.wallets.filter (fun w => !(w.id == walletId)) }

/-- `AuthService.setPrimaryWallet`: lock the user row, check ownership,
clear `isPrimary` on all of the user's wallets, set it on the target,
and denormalize the target's address onto the user. -/
def setPrimaryWallet (s : AuthStore) (userId walletId : String) :
    Except Err (AuthStore × Wallet) :=
  match lockUserRow s userId with
  | .error e => .error e
  | .ok _ =>
    match s.wallets.find? (fun w => w.id == walletId && w.userId == userId) with
    | none => .error (.notFound "Wallet not found")
    | some target =>
      let s1 : AuthStore := { s with wallets := s.wallets.map (fun w =>
          if w.userId == userId then { w with isPrimary := false } else w) }
      let s2 : AuthStore := { s1 with wallets := s1.wallets.map (fun w =>
          if w.id == walletId then { w with isPrimary := true } else w) }
      let updatedWallet := { target with isPrimary := true }
      let s3 : AuthStore := { s2 with users := s2.users.map (fun u =>
          if u.id == userId then { u with stellarAddress := updatedWallet.address } else u) }
      .ok (s3, updatedWallet)

/-! ## Escrow service (escrow.service.ts, src/unnamed/part_003) -/

/-- Escrow lifecycle states. -/
inductive EscrowStatus where
  | PENDING
  | ACTIVE
  | COMPLETED
  | DISPUTED
  | EXPIRED
  deriving DecidableEq, Repr

/-- How each status prints (`${existing.status}` in error messages). -/
def EscrowStatus.asString : EscrowStatus → String
  | .PENDING => "PENDING"
  | .ACTIVE => "ACTIVE"
  | .COMPLETED => "COMPLETED"
  | .DISPUTED => "DISPUTED"
  | .EXPIRED => "EXPIRED"

/-- Membership in the `ESCROW_STATUSES` set, plus parsing: which
normalized strings name a status. -/
def parseEscrowStatus : String → Option EscrowStatus
  | "PENDING" => some .PENDING
  | "ACTIVE" => some .ACTIVE
  | "COMPLETED" => some .COMPLETED
  | "DISPUTED" => some .DISPUTED
  | "EXPIRED" => some .EXPIRED
  | _ => none

/-- `ESCROW_ALLOWED_TRANSITIONS`: the set of statuses each status may
move to (self-loops included). -/
def ESCROW_ALLOWED_TRANSITIONS : EscrowStatus → List EscrowStatus
  | .PENDING => [.PENDING, .ACTIVE, .COMPLETED, .DISPUTED, .EXPIRED]
  | .ACTIVE => [.ACTIVE, .COMPLETED, .DISPUTED, .EXPIRED]
  | .COMPLETED => [.COMPLETED]
  | .DISPUTED => [.DISPUTED, .ACTIVE, .COMPLETED, .EXPIRED]
  | .EXPIRED => [.EXPIRED]

/-- `normalizeStatus`: trim, upper-case, and check membership in
`ESCROW_STATUSES`; `ValidationError` otherwise (also for an absent or
blank value). -/
def normalizeStatus (value : Option String) (fieldName : String) :
    Except Err EscrowStatus :=
  let status := jsToUpper (jsTrim (value.getD ""))
  match parseEscrowStatus status with
  | some st => .ok st
  | none => .error (.validation
      (fieldName ++ " must be one of: PENDING, ACTIVE, COMPLETED, DISPUTED, EXPIRED"))

/-- `MIN_PAGE`, `DEFAULT_PAGE`, `DEFAULT_LIMIT`, `MAX_LIMIT`. -/
def DEFAULT_PAGE : Int := 1

/-- Default page size of `listEscrows`. -/
def DEFAULT_LIMIT : Int := 20

/-- Upper bound `coerceLimit` caps the page size at. -/
def MAX_LIMIT : Int := 100

/-- The result of JavaScript's `Number(value ?? dflt)` coercion on a
`string | number | undefined` input: `missing` is `undefined` (so the
default is coerced instead), `nan` is any input whose coercion is not a
finite number (`NaN`, `±Infinity`), and `num q` a finite numeric
value. -/
inductive JsNumInput where
  | missing
  | nan
  | num (q : ℚ)
  deriving DecidableEq, Repr

/-- `coercePage`: default 1 for missing/non-finite/below-1 input,
floored otherwise. -/
def coercePage : JsNumInput → Int
  | .missing => DEFAULT_PAGE
  | .nan => DEFAULT_PAGE
  | .num q => if q < 1 then DEFAULT_PAGE else ⌊q⌋

/-- `coerceLimit`: default 20 for missing/non-finite/below-1 input,
floored and capped at `MAX_LIMIT` otherwise. -/
def coerceLimit : JsNumInput → Int
  | .missing => DEFAULT_LIMIT
  | .nan => DEFAULT_LIMIT
  | .num q => if q < 1 then DEFAULT_LIMIT else min MAX_LIMIT ⌊q⌋

/-- The `pagination` object `listEscrows` returns:
`totalPages = Math.max(1, Math.ceil(total / limit))` with `page` and
`limit` as coerced, `total` the matching row count. -/
structure EscrowPagination where
  page : Int
  limit : Int
  total : Nat
  totalPages : Int
  deriving DecidableEq, Repr

/-- The pagination arithmetic of `EscrowService.listEscrows` (the
`findMany`'s `skip = (page-1)*limit, take = limit` and the returned
`pagination` record). -/
def listEscrowsPagination (page limit : JsNumInput) (total : Nat) : EscrowPagination :=
  let p := coercePage page
  let l := coerceLimit limit
  { page := p, limit := l, total, totalPages := max 1 ⌈(total : ℚ) / (l : ℚ)⌉ }

/-- An `Escrow` row. -/
structure Escrow where
  id : String
  buyerId : String
  sellerId : String
  amount : ℚ
  assetCode : String
  status : EscrowStatus
  expiresAt : Nat
  stellarTxHash : Option String
  createdAt : Nat
  deriving DecidableEq, Repr

/-- The escrow table. -/
structure EscrowStore where
  escrows : List Escrow
  deriving DecidableEq, Repr

/-- The webhook/indexer payload `processEscrowEvent` receives. -/
structure EscrowEventPayload where
  escrowId : Option String
  status : Option String
  stellarTxHash : Option String
  deriving DecidableEq, Repr

/-- The row predicate of the conditional update
`updateMany({ where: { id: escrowId, status: existing.status } })`. -/
def escrowCondMatches (e : Escrow) (escrowId : String) (observed : EscrowStatus) : Bool :=
  e.id == escrowId && e.status == observed

/-- The rows the conditional update writes (status set to `newStatus`,
`stellarTxHash` set when the payload carries one). -/
def escrowCondUpdate (escrows : List Escrow) (escrowId : String)
    (observed newStatus : EscrowStatus) (txHash : Option String) : List Escrow :=
  escrows.map (fun e => if escrowCondMatches e escrowId observed
    then { e with status := newStatus,
                  stellarTxHash := match txHash with | some h => some h | none => e.stellarTxHash }
    else e)

/-- The affected-row count the conditional update reports. -/
def escrowCondMatchCount (escrows : List Escrow) (escrowId : String)
    (observed : EscrowStatus) : Nat :=
  (escrows.filter (fun e => escrowCondMatches e escrowId observed)).length

/-- `EscrowService.processEscrowEvent` with the read and the write
phase split across two store snapshots: the current status is observed
in `sRead`, and the conditional update runs against `sWrite`, which a
concurrent writer may have changed in between (`sRead = sWrite` is the
interference-free run, `processEscrowEvent` below).  Returns the store
after the update, the re-read escrow, and the list of
`broadcastEscrowUpdated` events emitted (empty on a self-loop).

The method runs outside any transaction, but every `.error` branch
either precedes the `updateMany` or is the affected-count-≠-1 branch,
which (ids being unique) means the update matched nothing and wrote
nothing — so an `.error` leaves `sWrite` unchanged. -/
def processEscrowEventRW (event : EscrowEventPayload) (sRead sWrite : EscrowStore) :
    Except Err (EscrowStore × Escrow × List (String × EscrowStatus)) :=
  let escrowId := jsTrim (event.escrowId.getD "")
  if escrowId = "" then .error (.validation "escrowId is required")
  else
    match normalizeStatus event.status "status" with
    | .error e => .error e
    | .ok status =>
      match sRead.escrows.find? (fun e => e.id == escrowId) with
      | none => .error (.notFound "Escrow not found")
      | some existing =>
        if !(ESCROW_ALLOWED_TRANSITIONS existing.status).contains status then
          .error (.validation ("Illegal escrow status transition: " ++
            existing.status.asString ++ " -> " ++ status.asString))
        else
          let count := escrowCondMatchCount sWrite.escrows escrowId existing.status
          let escrows' := escrowCondUpdate sWrite.escrows escrowId existing.status status
            event.stellarTxHash
          if count ≠ 1 then
            .error (.validation "Escrow status changed concurrently. Please retry with latest state.")
          else
            match escrows'.find? (fun e => e.id == escrowId) with
            | none => .error (.notFound "Escrow not found")
            | some updated =>
              let events := if existing.status ≠ updated.status
                then [(updated.id, updated.status)] else []
              .ok ({ escrows := escrows' }, updated, events)

/-- `processEscrowEvent` as it actually runs when no concurrent writer
interferes between its read and its conditional update. -/
def processEscrowEvent (event : EscrowEventPayload) (s : EscrowStore) :
    Except Err (EscrowStore × Escrow × List (String × EscrowStatus)) :=
  processEscrowEventRW event s s

/-- The `setInterval` period of `EscrowService.timeoutDetector`
(`60_000` ms). -/
def ESCROW_SWEEP_INTERVAL_MS : Nat := 60000

/-- One tick of `EscrowService.timeoutDetector`: select the ACTIVE
escrows whose `expiresAt` is before now, bulk-update them to EXPIRED
filtered again by `status = ACTIVE`, re-select which of those ids now
read EXPIRED, and emit one `broadcastEscrowUpdated(id, "EXPIRED")`
event per such escrow. -/
def timeoutSweepTick (s : EscrowStore) (now : Nat) :
    EscrowStore × List (String × EscrowStatus) :=
  let overdue := s.escrows.filter (fun e => e.status == .ACTIVE && decide (e.expiresAt < now))
  if overdue.isEmpty then (s, [])
  else
    let overdueIds := overdue.map (fun e => e.id)
    let escrows' := s.escrows.map (fun e =>
      if e.status == .ACTIVE && overdueIds.contains e.id
        then { e with status := .EXPIRED } else e)
    let expired := escrows'.filter (fun e =>
      overdueIds.contains e.id && e.status == .EXPIRED)
    ({ escrows := escrows' }, expired.map (fun e => (e.id, EscrowStatus.EXPIRED)))

/-- The `try/catch` wrapping each sweep tick: a failing tick is logged
and leaves the store as it was; the `setInterval` timer survives to run
the next tick. -/
def timeoutSweepTickGuarded (tick : Except String (EscrowStore × List (String × EscrowStatus)))
    (s : EscrowStore) : EscrowStore × List (String × EscrowStatus) :=
  match tick with
  | .ok r => r
  | .error _ => (s, [])

/-! ## Loan service (loan.service.ts, src/unnamed/part_002) -/

/-- Loan lifecycle states (`VALID_LOAN_STATUSES`). -/
inductive LoanStatus where
  | PENDING
  | ACTIVE
  | REPAID
  | DEFAULTED
  deriving DecidableEq, Repr

/-- `MIN_COLLATERAL_RATIO = new Decimal("1.5")`. -/
def MIN_COLLATERAL_RATIO : ℚ := 3 / 2

/-- A `Loan` row. -/
structure Loan where
  id : String
  borrowerId : String
  lenderId : String
  amount : ℚ
  collateralAmt : ℚ
  assetCode : String
  escrowAddress : Option String
  status : LoanStatus
  createdAt : Nat
  deriving DecidableEq, Repr

/-- A `Repayment` row (append-only). -/
structure Repayment where
  id : String
  loanId : String
  amount : ℚ
  paidAt : Nat
  deriving DecidableEq, Repr

/-- The slice of the store the loan service touches: the user ids that
exist, the loan table, and the repayment table (in creation order). -/
structure LoanStore where
  userIds : List String
  loans : List Loan
  repayments : List Repayment
  deriving DecidableEq, Repr

/-- The loan service's external collaborators: the configured
`contracts.loan` id and the opaque `buildContractInvokeXDR`. -/
structure LoanEnv where
  loanContractId : Option String
  buildContractInvokeXDR : String → String → List (Option String) → String

/-- `parsePositiveDecimal`: `none` stands for an input `new Decimal`
rejects or that is not finite (`undefined`, unparseable string, `NaN`,
`±Infinity`); a finite parsed value must additionally be `> 0`. -/
def parsePositiveDecimal (value : Option ℚ) (fieldName : String) : Except Err ℚ :=
  match value with
  | none => .error (.validation (fieldName ++ " must be a positive number"))
  | some parsed =>
    if parsed ≤ 0 then .error (.validation (fieldName ++ " must be a positive number"))
    else .ok parsed

/-- `value || dflt` on an optional string (JS falsy: absent or ""). -/
def jsOrDefault (value : Option String) (dflt : String) : String :=
  match value with
  | none => dflt
  | some v => if v = "" then dflt else v

/-- `value || null` on an optional string. -/
def jsOrNull (value : Option String) : Option String :=
  match value with
  | none => none
  | some v => if v = "" then none else some v

/-- `IssueLoanRequest`. -/
structure IssueLoanRequest where
  requestingUserId : Option String
  borrowerId : Option String
  lenderId : Option String
  amount : Option ℚ
  assetCode : Option String
  collateralAmt : Option ℚ
  escrowAddress : Option String

/-- `LoanService.issueLoan`: validate the parties, require the
requester to be borrower or lender, parse the amounts, enforce the
collateral ratio `collateralAmt / amount ≥ 1.5` (exact decimal
division), check both users exist and the loan contract id is
configured, build the invocation payload, persist the loan PENDING and
broadcast one loan-updated event. -/
def issueLoan (env : LoanEnv) (s : LoanStore) (p : IssueLoanRequest)
    (newLoanId : String) (now : Nat) :
    Except Err (LoanStore × Loan × String × List (String × LoanStatus)) :=
  let requestingUserId := jsTrim (p.requestingUserId.getD "")
  if requestingUserId = "" then .error (.validation "requestingUserId is required")
  else
    let borrowerId := jsTrim (p.borrowerId.getD "")
    let lenderId := jsTrim (p.lenderId.getD "")
    if borrowerId = "" then .error (.validation "borrowerId is required")
    else if lenderId = "" then .error (.validation "lenderId is required")
    else if borrowerId = lenderId then
      .error (.validation "Borrower and lender must be different")
    else if requestingUserId ≠ borrowerId ∧ requestingUserId ≠ lenderId then
      .error (.forbidden "Only the borrower or lender can create this loan")
    else
      match parsePositiveDecimal p.amount "amount" with
      | .error e => .error e
      | .ok amount =>
        match parsePositiveDecimal p.collateralAmt "collateralAmt" with
        | .error e => .error e
        | .ok collateralAmt =>
          let collateralRatio := collateralAmt / amount
          if collateralRatio < MIN_COLLATERAL_RATIO then
            .error (.validation "Collateral ratio must be at least 1.50")
          else if !(s.userIds.contains borrowerId && s.userIds.contains lenderId) then
            .error (.validation "borrowerId or lenderId does not exist")
          else
            let loanContractId := jsTrim (env.loanContractId.getD "")
            if loanContractId = "" then
              .error (.validation "LOAN_CONTRACT_ID not configured")
            else
              let xdr := env.buildContractInvokeXDR loanContractId "issue_loan"
                [some borrowerId, some lenderId, some (toString amount),
                 some (toString collateralAmt), some (jsOrDefault p.assetCode "USDC"),
                 jsOrNull p.escrowAddress]
              let loan : Loan :=
                { id := newLoanId, borrowerId, lenderId, amount, collateralAmt,
                  assetCode := jsOrDefault p.assetCode "USDC",
                  escrowAddress := jsOrNull p.escrowAddress,
                  status := .PENDING, createdAt := now }
              .ok ({ s with loans := s.loans ++ [loan] }, loan, xdr,
                [(loan.id, LoanStatus.PENDING)])

/-- `RecordRepaymentRequest`; for `paidAt`, `none` is absent,
`some none` a present but unparseable date, `some (some t)` a valid
date. -/
structure RecordRepaymentRequest where
  requestingUserId : Option String
  loanId : Option String
  amount : Option ℚ
  paidAt : Option (Option Nat)

/-- The repayments of one loan, in creation order. -/
def loanRepayments (s : LoanStore) (loanId : String) : List Repayment :=
  s.repayments.filter (fun r => r.loanId == loanId)

/-- The derived next status of `recordRepayment`: REPAID when the
outstanding balance reaches zero, ACTIVE on a first repayment of a
PENDING loan, otherwise unchanged. -/
def nextLoanStatus (current : LoanStatus) (outstandingAfter : ℚ) : LoanStatus :=
  if outstandingAfter = 0 then .REPAID
  else if current = .PENDING then .ACTIVE
  else current

/-- `Σ repayments.amount` (`reduce` from `ZERO`). -/
def totalRepaid (s : LoanStore) (loanId : String) : ℚ :=
  (loanRepayments s loanId).foldl (fun sum r => sum + r.amount) 0

/-- What `recordRepayment` returns. -/
structure RepaymentResult where
  repayment : Repayment
  outstandingBefore : ℚ
  outstandingAfter : ℚ
  fullyRepaid : Bool
  loanStatus : LoanStatus
  deriving DecidableEq, Repr

/-- `LoanService.recordRepayment`, run in one serializable
transaction: load the loan with its repayments, check the requester is
a party and the loan not DEFAULTED, compute the outstanding balance in
exact decimals, reject an already-repaid loan or an over-payment,
append the repayment, derive the next status (REPAID at zero, ACTIVE
from PENDING, otherwise unchanged) and write it only when it changed,
broadcasting one loan-updated event exactly in that case. -/
def recordRepayment (s : LoanStore) (p : RecordRepaymentRequest)
    (newRepaymentId : String) (now : Nat) :
    Except Err (LoanStore × RepaymentResult × List (String × LoanStatus)) :=
  let requestingUserId := jsTrim (p.requestingUserId.getD "")
  if requestingUserId = "" then .error (.validation "requestingUserId is required")
  else
    let loanId := jsTrim (p.loanId.getD "")
    if loanId = "" then .error (.validation "loanId is required")
    else
      match parsePositiveDecimal p.amount "amount" with
      | .error e => .error e
      | .ok amount =>
        if p.paidAt = some none then .error (.validation "paidAt must be a valid date")
        else
          let paidAt : Option Nat := p.paidAt.join
          match s.loans.find? (fun l => l.id == loanId) with
          | none => .error (.notFound "Loan not found")
          | some loan =>
            if requestingUserId ≠ loan.borrowerId ∧ requestingUserId ≠ loan.lenderId then
              .error (.forbidden "Only the borrower or lender can record repayments")
            else if loan.status = .DEFAULTED then
              .error (.validation "Cannot record repayment for a defaulted loan")
            else
              let outstandingBefore := loan.amount - totalRepaid s loanId
              if outstandingBefore ≤ 0 then
                .error (.validation "Loan is already fully repaid")
              else if outstandingBefore < amount then
                .error (.validation "Repayment exceeds outstanding balance")
              else
                let repayment : Repayment :=
                  { id := newRepaymentId, loanId, amount,
                    paidAt := paidAt.getD now }
                let s1 : LoanStore := { s with repayments := s.repayments ++ [repayment] }
                let outstandingAfter := outstandingBefore - amount
                let nextStatus : LoanStatus := nextLoanStatus loan.status outstandingAfter
                let s2 : LoanStore :=
                  if nextStatus ≠ loan.status then
                    { s1 with loans := s1.loans.map (fun l =>
                        if l.id == loanId then { l with status := nextStatus } else l) }
                  else s1
                let events := if nextStatus ≠ loan.status
                  then [(loanId, nextStatus)] else []
                match s2.loans.find? (fun l => l.id == loanId) with
                | none => .error (.notFound "Loan not found")
                | some updatedLoan =>
                  .ok (s2,
                    { repayment, outstandingBefore, outstandingAfter,
                      fullyRepaid := outstandingAfter == 0,
                      loanStatus := updatedLoan.status },
                    events)

/-! ## Supporting lemmas -/

theorem mem_allowed_self (c : EscrowStatus) : c ∈ ESCROW_ALLOWED_TRANSITIONS c := by
  cases c <;> decide

/-- Elaboration of a successful `processEscrowEventRW` run: what must
have held and what the result is. -/
theorem processEscrowEventRW_ok {event : EscrowEventPayload} {sRead sWrite : EscrowStore}
    {s' : EscrowStore} {esc : Escrow} {evs : List (String × EscrowStatus)}
    (h : processEscrowEventRW event sRead sWrite = .ok (s', esc, evs)) :
    ∃ status existing,
      jsTrim (event.escrowId.getD "") ≠ "" ∧
      normalizeStatus event.status "status" = .ok status ∧
      sRead.escrows.find? (fun e => e.id == jsTrim (event.escrowId.getD "")) = some existing ∧
      status ∈ ESCROW_ALLOWED_TRANSITIONS existing.status ∧
      escrowCondMatchCount sWrite.escrows (jsTrim (event.escrowId.getD "")) existing.status = 1 ∧
      s'.escrows = escrowCondUpdate sWrite.escrows (jsTrim (event.escrowId.getD ""))
        existing.status status event.stellarTxHash ∧
      s'.escrows.find? (fun e => e.id == jsTrim (event.escrowId.getD "")) = some esc ∧
      evs = (if existing.status = esc.status then [] else [(esc.id, esc.status)]) := by
  by_cases hne : jsTrim (event.escrowId.getD "") = ""
  · rw [processEscrowEventRW] at h
    simp [hne] at h
  · cases hst : normalizeStatus event.status "status" with
    | error e =>
      rw [processEscrowEventRW] at h
      simp [hne, hst] at h
    | ok status =>
      cases hfind : sRead.escrows.find? (fun e => e.id == jsTrim (event.escrowId.getD "")) with
      | none =>
        rw [processEscrowEventRW] at h
        simp [hne, hst, hfind] at h
      | some existing =>
        by_cases hallowed : status ∈ ESCROW_ALLOWED_TRANSITIONS existing.status
        · by_cases hcount :
            escrowCondMatchCount sWrite.escrows (jsTrim (event.escrowId.getD "")) existing.status = 1
          · cases hfind2 : (escrowCondUpdate sWrite.escrows (jsTrim (event.escrowId.getD ""))
                existing.status status event.stellarTxHash).find?
                (fun e => e.id == jsTrim (event.escrowId.getD "")) with
            | none =>
              rw [processEscrowEventRW] at h
              simp [hne, hst, hfind, hallowed, hcount, hfind2] at h
            | some esc0 =>
              rw [processEscrowEventRW] at h
              simp [hne, hst, hfind, hallowed, hcount, hfind2] at h
              refine ⟨status, existing, hne, rfl, rfl, hallowed, hcount, ?_⟩
              rcases h with ⟨h1, h2, h3⟩
              subst h1
              rcases h2 with rfl
              exact ⟨rfl, hfind2, h3.symm⟩
          · rw [processEscrowEventRW] at h
            simp [hne, hst, hfind, hallowed, hcount] at h
        · rw [processEscrowEventRW] at h
          simp [hne, hst, hfind, hallowed] at h

/-- A conditional update that matched zero rows wrote nothing. -/
theorem escrowCondUpdate_of_count_zero (escrows : List Escrow) (eid : String)
    (observed newStatus : EscrowStatus) (tx : Option String)
    (h : escrowCondMatchCount escrows eid observed = 0) :
    escrowCondUpdate escrows eid observed newStatus tx = escrows := by
  have hnil : escrows.filter (fun e => escrowCondMatches e eid observed) = [] :=
    List.eq_nil_of_length_eq_zero h
  have hnone : ∀ e ∈ escrows, ¬(escrowCondMatches e eid observed = true) :=
    fun e he => List.filter_eq_nil_iff.mp hnil e he
  unfold escrowCondUpdate
  calc escrows.map (fun e => if escrowCondMatches e eid observed
        then { e with status := newStatus,
                      stellarTxHash := match tx with | some h => some h | none => e.stellarTxHash }
        else e)
      = escrows.map id := by
        apply List.map_congr_left
        intro e he
        simp [hnone e he]
    _ = escrows := List.map_id escrows

/-- When the conditional update of `processEscrowEventRW` matches no
row of the write-side store, the call fails with the retry
`ValidationError`. -/
theorem processEscrowEventRW_conflict {event : EscrowEventPayload}
    {sRead sWrite : EscrowStore} {status : EscrowStatus} {existing : Escrow}
    (hne : jsTrim (event.escrowId.getD "") ≠ "")
    (hst : normalizeStatus event.status "status" = .ok status)
    (hfind : sRead.escrows.find? (fun e => e.id == jsTrim (event.escrowId.getD "")) = some existing)
    (hallowed : status ∈ ESCROW_ALLOWED_TRANSITIONS existing.status)
    (hcount : escrowCondMatchCount sWrite.escrows (jsTrim (event.escrowId.getD ""))
      existing.status = 0) :
    processEscrowEventRW event sRead sWrite =
      .error (.validation "Escrow status changed concurrently. Please retry with latest state.") := by
  rw [processEscrowEventRW]
  simp [hne, hst, hfind, hallowed, hcount]

/-! ## Concrete fixtures used by witnesses -/

/-- A COMPLETED escrow row used as a concrete witness input. -/
def sampleEscrowCompleted : Escrow :=
  { id := "e1", buyerId := "b", sellerId := "s", amount := 5, assetCode := "USDC",
    status := .COMPLETED, expiresAt := 100, stellarTxHash := none, createdAt := 0 }

/-- A store holding just `sampleEscrowCompleted`. -/
def sampleEscrowStore : EscrowStore :=
  { escrows := [sampleEscrowCompleted] }

/-- A webhook payload asking `sampleEscrowCompleted` to become ACTIVE. -/
def sampleEventActive : EscrowEventPayload :=
  { escrowId := some "e1", status := some "ACTIVE", stellarTxHash := none }

/-- A webhook payload repeating `sampleEscrowCompleted`'s own status
(a self-loop). -/
def sampleEventCompleted : EscrowEventPayload :=
  { escrowId := some "e1", status := some "COMPLETED", stellarTxHash := none }

/-- An escrow store with no rows. -/
def emptyEscrowStore : EscrowStore :=
  { escrows := [] }

/-- An ACTIVE escrow already past its deadline at time 200. -/
def sampleEscrowOverdue : Escrow :=
  { id := "e2", buyerId := "b", sellerId := "s", amount := 7, assetCode := "USDC",
    status := .ACTIVE, expiresAt := 100, stellarTxHash := none, createdAt := 0 }

/-- A PENDING escrow with a deadline still in the future at time 200. -/
def sampleEscrowPending : Escrow :=
  { id := "e3", buyerId := "b", sellerId := "s", amount := 9, assetCode := "USDC",
    status := .PENDING, expiresAt := 1000, stellarTxHash := none, createdAt := 0 }

/-- A two-row store exercising the sweep: one overdue ACTIVE escrow and
one untouched PENDING escrow. -/
def sweepWitnessStore : EscrowStore :=
  { escrows := [sampleEscrowOverdue, sampleEscrowPending] }

/-- The loan service collaborators pinned for witnesses: a configured
contract id and an opaque payload builder. -/
def loanEnvFixture : LoanEnv :=
  { loanContractId := some "CLOAN", buildContractInvokeXDR := fun _ _ _ => "XDR" }

/-- A loan store with two users and no loans. -/
def loanStoreFixture : LoanStore :=
  { userIds := ["alice", "bob"], loans := [], repayments := [] }

/-- An issue-loan request for amount 100 at the given collateral. -/
def issueLoanRequestAt (collateral : ℚ) : IssueLoanRequest :=
  { requestingUserId := some "alice", borrowerId := some "alice", lenderId := some "bob",
    amount := some 100, assetCode := none, collateralAmt := some collateral,
    escrowAddress := none }

/-! ## Claim theorems -/

/-- C3: escrow statuses only ever move along `ESCROW_ALLOWED_TRANSITIONS`
(PENDING→all five, ACTIVE→itself/COMPLETED/DISPUTED/EXPIRED,
DISPUTED→itself/ACTIVE/COMPLETED/EXPIRED, COMPLETED and EXPIRED
self-loop only); a successful `processEscrowEvent` moves every escrow
of the store along the table, a requested status outside the allowed
set of the current status fails with a `ValidationError` naming the
illegal transition (no update is computed for any write-side store),
and COMPLETED and EXPIRED are terminal. -/
theorem escrow_status_transition_safety :
    (ESCROW_ALLOWED_TRANSITIONS .PENDING = [.PENDING, .ACTIVE, .COMPLETED, .DISPUTED, .EXPIRED] ∧
     ESCROW_ALLOWED_TRANSITIONS .ACTIVE = [.ACTIVE, .COMPLETED, .DISPUTED, .EXPIRED] ∧
     ESCROW_ALLOWED_TRANSITIONS .DISPUTED = [.DISPUTED, .ACTIVE, .COMPLETED, .EXPIRED] ∧
     ESCROW_ALLOWED_TRANSITIONS .COMPLETED = [.COMPLETED] ∧
     ESCROW_ALLOWED_TRANSITIONS .EXPIRED = [.EXPIRED]) ∧
    (∀ n, n ∈ ESCROW_ALLOWED_TRANSITIONS .COMPLETED ↔ n = .COMPLETED) ∧
    (∀ n, n ∈ ESCROW_ALLOWED_TRANSITIONS .EXPIRED ↔ n = .EXPIRED) ∧
    (∀ event s s' esc evs, processEscrowEvent event s = .ok (s', esc, evs) →
      ∀ e' ∈ s'.escrows, ∃ e ∈ s.escrows,
        e.id = e'.id ∧ e'.status ∈ ESCROW_ALLOWED_TRANSITIONS e.status) ∧
    (∀ (event : EscrowEventPayload) (sRead sWrite : EscrowStore) status existing,
      jsTrim (event.escrowId.getD "") ≠ "" →
      normalizeStatus event.status "status" = .ok status →
      sRead.escrows.find? (fun e => e.id == jsTrim (event.escrowId.getD "")) = some existing →
      status ∉ ESCROW_ALLOWED_TRANSITIONS existing.status →
      processEscrowEventRW event sRead sWrite =
        .error (.validation ("Illegal escrow status transition: " ++
          existing.status.asString ++ " -> " ++ status.asString))) := by
  refine ⟨⟨rfl, rfl, rfl, rfl, rfl⟩, by intro n; cases n <;> decide,
    by intro n; cases n <;> decide, ?_, ?_⟩
  · intro event s s' esc evs h e' he'
    obtain ⟨status, existing, hne, hst, hfind, hallowed, hcount, heq, hfind2, hevs⟩ :=
      processEscrowEventRW_ok h
    rw [heq] at he'
    unfold escrowCondUpdate at he'
    rw [List.mem_map] at he'
    obtain ⟨e, he, hfe⟩ := he'
    by_cases hm : escrowCondMatches e (jsTrim (event.escrowId.getD "")) existing.status
    · refine ⟨e, he, ?_, ?_⟩
      · rw [← hfe]
        simp [hm]
      · have hstat : e.status = existing.status := by
          have := hm
          unfold escrowCondMatches at this
          simp at this
          exact this.2
        rw [← hfe]
        simp [hm, hstat, hallowed]
    · exact ⟨e, he, by rw [← hfe]; simp [hm], by rw [← hfe]; simp [hm, mem_allowed_self]⟩
  · intro event sRead sWrite status existing hne hst hfind hallowed
    rw [processEscrowEventRW]
    simp [hne, hst, hfind, hallowed]

/-- C3 witness: the rejection branch evaluated at a concrete store — a
COMPLETED escrow refuses a requested ACTIVE status. -/
theorem escrow_status_transition_safety_witness :
    processEscrowEventRW sampleEventActive sampleEscrowStore sampleEscrowStore =
      .error (.validation ("Illegal escrow status transition: " ++
        EscrowStatus.COMPLETED.asString ++ " -> " ++ EscrowStatus.ACTIVE.asString)) :=
  escrow_status_transition_safety.2.2.2.2 sampleEventActive sampleEscrowStore
    sampleEscrowStore .ACTIVE sampleEscrowCompleted
    (by decide) rfl (by decide) (by decide)

/-- C6: the status write of `processEscrowEvent` is a conditional
update guarded by the previously observed status — when it matches
zero rows (a concurrent writer already moved the status) it writes
nothing and the call fails with the retry `ValidationError`; and the
"status changed" broadcast happens exactly when the stored status
actually changed, a self-loop succeeding with no event. -/
theorem escrow_conditional_update_guard :
    (∀ (escrows : List Escrow) eid observed newStatus tx,
      escrowCondMatchCount escrows eid observed = 0 →
      escrowCondUpdate escrows eid observed newStatus tx = escrows) ∧
    (∀ (event : EscrowEventPayload) (sRead sWrite : EscrowStore) status existing,
      jsTrim (event.escrowId.getD "") ≠ "" →
      normalizeStatus event.status "status" = .ok status →
      sRead.escrows.find? (fun e => e.id == jsTrim (event.escrowId.getD "")) = some existing →
      status ∈ ESCROW_ALLOWED_TRANSITIONS existing.status →
      escrowCondMatchCount sWrite.escrows (jsTrim (event.escrowId.getD "")) existing.status = 0 →
      processEscrowEventRW event sRead sWrite =
        .error (.validation "Escrow status changed concurrently. Please retry with latest state.")) ∧
    (∀ event s s' esc evs, processEscrowEvent event s = .ok (s', esc, evs) →
      ∃ existing,
        s.escrows.find? (fun e => e.id == jsTrim (event.escrowId.getD "")) = some existing ∧
        (evs = [] ↔ esc.status = existing.status) ∧
        (existing.status ≠ esc.status → evs = [(esc.id, esc.status)])) := by
  refine ⟨escrowCondUpdate_of_count_zero,
    fun event sRead sWrite status existing hne hst hfind hallowed hcount =>
      processEscrowEventRW_conflict hne hst hfind hallowed hcount, ?_⟩
  intro event s s' esc evs h
  obtain ⟨status, existing, hne, hst, hfind, hallowed, hcount, heq, hfind2, hevs⟩ :=
    processEscrowEventRW_ok h
  refine ⟨existing, hfind, ?_, ?_⟩
  · by_cases hsame : existing.status = esc.status
    · simp [hevs, hsame]
    · simp [hevs, hsame]
      exact fun hs => hsame hs.symm
  · intro hne2
    simp [hevs, hne2]

/-- C6 witness: a conditional update against an empty write-side store
matches no row, writes nothing, and the call reports the concurrent
retry error; a self-loop event on `sampleEscrowStore` succeeds and
emits no broadcast. -/
theorem escrow_conditional_update_guard_witness :
    escrowCondUpdate [sampleEscrowCompleted] "zzz" .ACTIVE .EXPIRED none =
      [sampleEscrowCompleted] ∧
    processEscrowEventRW sampleEventCompleted sampleEscrowStore emptyEscrowStore =
      .error (.validation "Escrow status changed concurrently. Please retry with latest state.") ∧
    (∃ existing,
      sampleEscrowStore.escrows.find?
        (fun e => e.id == jsTrim (sampleEventCompleted.escrowId.getD "")) = some existing ∧
      (([] : List (String × EscrowStatus)) = [] ↔
        sampleEscrowCompleted.status = existing.status) ∧
      (existing.status ≠ sampleEscrowCompleted.status →
        ([] : List (String × EscrowStatus)) =
          [(sampleEscrowCompleted.id, sampleEscrowCompleted.status)])) :=
  ⟨escrow_conditional_update_guard.1 [sampleEscrowCompleted] "zzz" .ACTIVE .EXPIRED none
      (by decide),
   escrow_conditional_update_guard.2.1 sampleEventCompleted sampleEscrowStore emptyEscrowStore
      .COMPLETED sampleEscrowCompleted (by decide) rfl (by decide) (by decide) (by decide),
   escrow_conditional_update_guard.2.2 sampleEventCompleted sampleEscrowStore
      sampleEscrowStore sampleEscrowCompleted [] rfl⟩

/-- C10: `listEscrows` clamps its pagination inputs before use — a
missing, non-numeric or below-1 limit becomes 20 and any limit is
capped at 100; a missing, non-numeric or below-1 page becomes 1;
fractional values are floored; and the reported `totalPages` is at
least 1 even when no escrow matches. -/
theorem listEscrows_pagination_clamped :
    coerceLimit .missing = 20 ∧ coerceLimit .nan = 20 ∧
    (∀ q : ℚ, q < 1 → coerceLimit (.num q) = 20) ∧
    (∀ v, coerceLimit v ≤ 100) ∧
    (∀ q : ℚ, 1 ≤ q → coerceLimit (.num q) = min 100 ⌊q⌋) ∧
    coercePage .missing = 1 ∧ coercePage .nan = 1 ∧
    (∀ q : ℚ, q < 1 → coercePage (.num q) = 1) ∧
    (∀ q : ℚ, 1 ≤ q → coercePage (.num q) = ⌊q⌋) ∧
    (∀ page limit total, 1 ≤ (listEscrowsPagination page limit total).totalPages) ∧
    (∀ page limit, (listEscrowsPagination page limit 0).totalPages = 1) := by
  refine ⟨rfl, rfl, ?_, ?_, ?_, rfl, rfl, ?_, ?_, ?_, ?_⟩
  · intro q hq
    simp [coerceLimit, hq, DEFAULT_LIMIT]
  · intro v
    cases v with
    | missing => norm_num [coerceLimit, DEFAULT_LIMIT]
    | nan => norm_num [coerceLimit, DEFAULT_LIMIT]
    | num q =>
      by_cases hq : q < 1
      · norm_num [coerceLimit, hq, DEFAULT_LIMIT]
      · simp [coerceLimit, hq, MAX_LIMIT]
  · intro q hq
    simp [coerceLimit, not_lt.mpr hq, MAX_LIMIT]
  · intro q hq
    simp [coercePage, hq, DEFAULT_PAGE]
  · intro q hq
    simp [coercePage, not_lt.mpr hq]
  · intro page limit total
    simp [listEscrowsPagination]
  · intro page limit
    simp [listEscrowsPagination]

/-- C10 witness: concrete clamps — limit 1000 capped to 100, fractional
limit 2.5 floored to 2, page 0.5 clamped to 1, and an empty result set
still reports one page. -/
theorem listEscrows_pagination_clamped_witness :
    coerceLimit (.num 1000) ≤ 100 ∧
    coerceLimit (.num (5 / 2)) = min 100 ⌊(5 / 2 : ℚ)⌋ ∧
    coercePage (.num (1 / 2)) = 1 ∧
    (listEscrowsPagination .missing .missing 0).totalPages = 1 :=
  ⟨listEscrows_pagination_clamped.2.2.2.1 (.num 1000),
   listEscrows_pagination_clamped.2.2.2.2.1 (5 / 2) (by norm_num),
   listEscrows_pagination_clamped.2.2.2.2.2.2.2.1 (1 / 2) (by norm_num),
   listEscrows_pagination_clamped.2.2.2.2.2.2.2.2.2.2 .missing .missing⟩

/-- What one sweep tick does to a single row, stated as a reference
map: an ACTIVE escrow past its deadline becomes EXPIRED, every other
escrow is untouched. -/
def expireOverdue (now : Nat) (e : Escrow) : Escrow :=
  if e.status = .ACTIVE ∧ e.expiresAt < now then { e with status := .EXPIRED } else e

/-- With pairwise-distinct escrow ids, two escrows of the store with
the same id are the same row. -/
theorem escrow_id_injective {s : EscrowStore} (h : (s.escrows.map Escrow.id).Nodup)
    {e e' : Escrow} (he : e ∈ s.escrows) (he' : e' ∈ s.escrows) (hid : e.id = e'.id) :
    e = e' :=
  List.inj_on_of_nodup_map h he he' hid

/-- `List.contains` agrees with membership for strings. -/
theorem string_contains_iff (l : List String) (a : String) : l.contains a = true ↔ a ∈ l :=
  List.elem_iff

/-- Whether an escrow id appears among the overdue ids collected by the
sweep is, for a row of the store with distinct ids, the same as that
row itself being overdue. -/
theorem overdueIds_contains_iff (l : List Escrow) (now : Nat)
    (hnodup : (l.map Escrow.id).Nodup) (e : Escrow) (he : e ∈ l) :
    ((l.filter (fun e => e.status == .ACTIVE && decide (e.expiresAt < now))).map
      (fun e => e.id)).contains e.id = true ↔
    (e.status == .ACTIVE && decide (e.expiresAt < now)) = true := by
  rw [string_contains_iff, List.mem_map]
  constructor
  · rintro ⟨e', he', hid⟩
    have h1 : e' ∈ l := (List.mem_filter.mp he').1
    have h2 := (List.mem_filter.mp he').2
    rwa [List.inj_on_of_nodup_map hnodup h1 he hid] at h2
  · intro hp
    exact ⟨e, List.mem_filter.mpr ⟨he, hp⟩, rfl⟩

/-- C9: one tick of the timeout sweep flips to EXPIRED exactly the
escrows that are ACTIVE with `expiresAt` before now, leaves every other
escrow untouched, and emits one "status changed" event per escrow it
flipped; the tick period is 60 seconds, and a failing tick leaves the
store unchanged without stopping the timer (the next tick still
receives the store). -/
theorem escrow_timeout_sweep_exact :
    (∀ (s : EscrowStore) (now : Nat), (s.escrows.map Escrow.id).Nodup →
      (timeoutSweepTick s now).1.escrows = s.escrows.map (expireOverdue now) ∧
      (timeoutSweepTick s now).2 =
        (s.escrows.filter (fun e => e.status == .ACTIVE && decide (e.expiresAt < now))).map
          (fun e => (e.id, EscrowStatus.EXPIRED))) ∧
    ESCROW_SWEEP_INTERVAL_MS = 60 * 1000 ∧
    (∀ msg s, timeoutSweepTickGuarded (.error msg) s = (s, [])) := by
  refine ⟨?_, rfl, fun msg s => rfl⟩
  intro s now hnodup
  have hpoint : ∀ e ∈ s.escrows,
      (if e.status == .ACTIVE && ((s.escrows.filter
          (fun e => e.status == .ACTIVE && decide (e.expiresAt < now))).map
            (fun e => e.id)).contains e.id
        then { e with status := EscrowStatus.EXPIRED } else e) = expireOverdue now e := by
    intro e he
    by_cases hp : (e.status == .ACTIVE && decide (e.expiresAt < now)) = true
    · have hc := (overdueIds_contains_iff s.escrows now hnodup e he).mpr hp
      obtain ⟨hA, hLt⟩ : e.status = EscrowStatus.ACTIVE ∧ e.expiresAt < now := by simpa using hp
      rw [expireOverdue, hc, hA]
      simp [hLt]
    · have hc : ((s.escrows.filter
          (fun e => e.status == .ACTIVE && decide (e.expiresAt < now))).map
            (fun e => e.id)).contains e.id = false := by
        rw [Bool.eq_false_iff]
        intro habs
        exact hp ((overdueIds_contains_iff s.escrows now hnodup e he).mp habs)
      have hniff : ¬(e.status = EscrowStatus.ACTIVE ∧ e.expiresAt < now) := by simpa using hp
      rw [expireOverdue, hc]
      simp [hniff]
  have hfpoint : ∀ e ∈ s.escrows,
      ((fun x => ((s.escrows.filter
          (fun e => e.status == .ACTIVE && decide (e.expiresAt < now))).map
            (fun e => e.id)).contains x.id && x.status == EscrowStatus.EXPIRED) ∘
        expireOverdue now) e =
      (e.status == .ACTIVE && decide (e.expiresAt < now)) := by
    intro e he
    by_cases hp : (e.status == .ACTIVE && decide (e.expiresAt < now)) = true
    · have hc := (overdueIds_contains_iff s.escrows now hnodup e he).mpr hp
      obtain ⟨hA, hLt⟩ : e.status = EscrowStatus.ACTIVE ∧ e.expiresAt < now := by simpa using hp
      have hEx : expireOverdue now e = { e with status := EscrowStatus.EXPIRED } := by
        rw [expireOverdue, if_pos ⟨hA, hLt⟩]
      rw [Function.comp_apply, hEx]
      show (((s.escrows.filter
          (fun e => e.status == .ACTIVE && decide (e.expiresAt < now))).map
            (fun e => e.id)).contains e.id && (EscrowStatus.EXPIRED == EscrowStatus.EXPIRED)) =
        (e.status == .ACTIVE && decide (e.expiresAt < now))
      rw [hc, hp]
      decide
    · have hc : ((s.escrows.filter
          (fun e => e.status == .ACTIVE && decide (e.expiresAt < now))).map
            (fun e => e.id)).contains e.id = false := by
        rw [Bool.eq_false_iff]
        intro habs
        exact hp ((overdueIds_contains_iff s.escrows now hnodup e he).mp habs)
      have hniff : ¬(e.status = EscrowStatus.ACTIVE ∧ e.expiresAt < now) := by simpa using hp
      have hEx : expireOverdue now e = e := by
        rw [expireOverdue, if_neg hniff]
      rw [Function.comp_apply, hEx, hc, Bool.false_and]
      exact (Bool.eq_false_iff.mpr hp).symm
  by_cases hov : s.escrows.filter
      (fun e => e.status == .ACTIVE && decide (e.expiresAt < now)) = []
  · constructor
    · rw [timeoutSweepTick]
      simp only [hov, List.isEmpty_nil, if_true]
      calc s.escrows = s.escrows.map id := (List.map_id s.escrows).symm
        _ = s.escrows.map (expireOverdue now) := by
            apply List.map_congr_left
            intro e he
            have h1 := List.filter_eq_nil_iff.mp hov e he
            simp only [Bool.and_eq_true, beq_iff_eq, decide_eq_true_eq, not_and] at h1
            simp only [expireOverdue, id]
            by_cases h2 : e.status = .ACTIVE
            · simp [h2, h1 h2]
            · simp [h2]
    · rw [timeoutSweepTick]
      simp [hov]
  · have hmap : s.escrows.map (fun e =>
        if e.status == .ACTIVE && ((s.escrows.filter
            (fun e => e.status == .ACTIVE && decide (e.expiresAt < now))).map
              (fun e => e.id)).contains e.id
          then { e with status := EscrowStatus.EXPIRED } else e) =
        s.escrows.map (expireOverdue now) :=
      List.map_congr_left hpoint
    constructor
    · rw [timeoutSweepTick]
      simp only [List.isEmpty_iff, hov, if_false, ite_false]
      simpa using hmap
    · rw [timeoutSweepTick]
      simp only [List.isEmpty_iff, hov, if_false, ite_false]
      rw [hmap, List.filter_map, List.filter_congr hfpoint, List.map_map]
      apply List.map_congr_left
      intro e he
      have hg : (expireOverdue now e).id = e.id := by
        unfold expireOverdue
        by_cases h2 : e.status = .ACTIVE ∧ e.expiresAt < now <;> simp [h2]
      simp [Function.comp_apply, hg]

/-- A successful `parsePositiveDecimal` returns a parsed positive
value. -/
theorem parsePositiveDecimal_ok {v : Option ℚ} {f : String} {a : ℚ}
    (h : parsePositiveDecimal v f = .ok a) : v = some a ∧ 0 < a := by
  cases v with
  | none => simp [parsePositiveDecimal] at h
  | some q =>
    by_cases hq : q ≤ 0
    · simp [parsePositiveDecimal, hq] at h
    · simp [parsePositiveDecimal, hq] at h
      refine ⟨by rw [h], ?_⟩
      rw [← h]
      exact lt_of_not_le hq

/-- A successful `issueLoan` parsed both amounts positive and the
collateral ratio check passed. -/
theorem issueLoan_ok {env : LoanEnv} {s : LoanStore} {p : IssueLoanRequest}
    {newLoanId : String} {now : Nat}
    {out : LoanStore × Loan × String × List (String × LoanStatus)}
    (h : issueLoan env s p newLoanId now = .ok out) :
    ∃ a c, p.amount = some a ∧ p.collateralAmt = some c ∧ 0 < a ∧ 0 < c ∧
      MIN_COLLATERAL_RATIO ≤ c / a := by
  rw [issueLoan] at h
  by_cases h1 : jsTrim (p.requestingUserId.getD "") = ""
  · simp [h1] at h
  · simp only [h1, if_false, ite_false] at h
    by_cases h2 : jsTrim (p.borrowerId.getD "") = ""
    · simp [h2] at h
    · simp only [h2, if_false, ite_false] at h
      by_cases h3 : jsTrim (p.lenderId.getD "") = ""
      · simp [h3] at h
      · simp only [h3, if_false, ite_false] at h
        by_cases h4 : jsTrim (p.borrowerId.getD "") = jsTrim (p.lenderId.getD "")
        · simp [h4] at h
        · simp only [h4, if_false, ite_false] at h
          by_cases h5 : jsTrim (p.requestingUserId.getD "") ≠ jsTrim (p.borrowerId.getD "") ∧
              jsTrim (p.requestingUserId.getD "") ≠ jsTrim (p.lenderId.getD "")
          · simp [h5] at h
          · simp only [h5, if_false, ite_false] at h
            cases hpa : parsePositiveDecimal p.amount "amount" with
            | error e => simp [hpa] at h
            | ok a =>
              simp only [hpa] at h
              cases hpc : parsePositiveDecimal p.collateralAmt "collateralAmt" with
              | error e => simp [hpc] at h
              | ok c =>
                simp only [hpc] at h
                by_cases h6 : c / a < MIN_COLLATERAL_RATIO
                · simp [h6] at h
                · obtain ⟨ha1, ha2⟩ := parsePositiveDecimal_ok hpa
                  obtain ⟨hc1, hc2⟩ := parsePositiveDecimal_ok hpc
                  exact ⟨a, c, ha1, hc1, ha2, hc2, le_of_not_lt h6⟩

/-- C9 witness: a two-row store — one overdue ACTIVE escrow flips to
EXPIRED with one event, a PENDING one is untouched with no event. -/
theorem escrow_timeout_sweep_exact_witness :
    (timeoutSweepTick sweepWitnessStore 200).1.escrows =
      sweepWitnessStore.escrows.map (expireOverdue 200) ∧
    (timeoutSweepTick sweepWitnessStore 200).2 =
      (sweepWitnessStore.escrows.filter
        (fun e => e.status == .ACTIVE && decide (e.expiresAt < 200))).map
          (fun e => (e.id, EscrowStatus.EXPIRED)) :=
  (escrow_timeout_sweep_exact.1 sweepWitnessStore 200 (by decide))

/-- When every precondition before the ratio check holds but the
collateral ratio is below 1.5, `issueLoan` rejects with the collateral
`ValidationError`. -/
theorem issueLoan_collateral_reject {env : LoanEnv} {s : LoanStore} {p : IssueLoanRequest}
    {newLoanId : String} {now : Nat} {a c : ℚ}
    (h1 : jsTrim (p.requestingUserId.getD "") ≠ "")
    (h2 : jsTrim (p.borrowerId.getD "") ≠ "")
    (h3 : jsTrim (p.lenderId.getD "") ≠ "")
    (h4 : jsTrim (p.borrowerId.getD "") ≠ jsTrim (p.lenderId.getD ""))
    (h5 : ¬(jsTrim (p.requestingUserId.getD "") ≠ jsTrim (p.borrowerId.getD "") ∧
      jsTrim (p.requestingUserId.getD "") ≠ jsTrim (p.lenderId.getD "")))
    (ha : p.amount = some a) (hapos : 0 < a)
    (hc : p.collateralAmt = some c) (hcpos : 0 < c)
    (hratio : c / a < MIN_COLLATERAL_RATIO) :
    issueLoan env s p newLoanId now =
      .error (.validation "Collateral ratio must be at least 1.50") := by
  have hpa : parsePositiveDecimal p.amount "amount" = .ok a := by
    rw [ha]
    simp [parsePositiveDecimal, not_le.mpr hapos]
  have hpc : parsePositiveDecimal p.collateralAmt "collateralAmt" = .ok c := by
    rw [hc]
    simp [parsePositiveDecimal, not_le.mpr hcpos]
  rw [issueLoan]
  simp [h1, h2, h3, h4, h5, hpa, hpc, hratio]

/-- When every precondition of `issueLoan` holds, including the
collateral ratio, the call succeeds. -/
theorem issueLoan_succeeds {env : LoanEnv} {s : LoanStore} {p : IssueLoanRequest}
    {newLoanId : String} {now : Nat} {a c : ℚ}
    (h1 : jsTrim (p.requestingUserId.getD "") ≠ "")
    (h2 : jsTrim (p.borrowerId.getD "") ≠ "")
    (h3 : jsTrim (p.lenderId.getD "") ≠ "")
    (h4 : jsTrim (p.borrowerId.getD "") ≠ jsTrim (p.lenderId.getD ""))
    (h5 : ¬(jsTrim (p.requestingUserId.getD "") ≠ jsTrim (p.borrowerId.getD "") ∧
      jsTrim (p.requestingUserId.getD "") ≠ jsTrim (p.lenderId.getD "")))
    (ha : p.amount = some a) (hapos : 0 < a)
    (hc : p.collateralAmt = some c) (hcpos : 0 < c)
    (hratio : ¬(c / a < MIN_COLLATERAL_RATIO))
    (hub : jsTrim (p.borrowerId.getD "") ∈ s.userIds)
    (hul : jsTrim (p.lenderId.getD "") ∈ s.userIds)
    (hcid : jsTrim (env.loanContractId.getD "") ≠ "") :
    ∃ out, issueLoan env s p newLoanId now = .ok out := by
  have hpa : parsePositiveDecimal p.amount "amount" = .ok a := by
    rw [ha]
    simp [parsePositiveDecimal, not_le.mpr hapos]
  have hpc : parsePositiveDecimal p.collateralAmt "collateralAmt" = .ok c := by
    rw [hc]
    simp [parsePositiveDecimal, not_le.mpr hcpos]
  rw [issueLoan]
  simp [h1, h2, h3, h4, h5, hpa, hpc, hratio, hub, hul, hcid]

/-- C5: a loan is issued only when `collateralAmt / amount ≥ 1.5` in
exact decimal division — every successful `issueLoan` satisfies the
ratio, a request failing it (all other preconditions satisfied) is
rejected with the collateral `ValidationError`, and concretely
`issueLoan(amount=100, collateralAmt=149)` fails while
`issueLoan(amount=100, collateralAmt=150)` succeeds. -/
theorem loan_collateral_ratio_enforced :
    (∀ env s p newLoanId now out, issueLoan env s p newLoanId now = .ok out →
      ∃ a c, p.amount = some a ∧ p.collateralAmt = some c ∧ 0 < a ∧ 0 < c ∧
        MIN_COLLATERAL_RATIO ≤ c / a) ∧
    (∀ env s (p : IssueLoanRequest) newLoanId now (a c : ℚ),
      jsTrim (p.requestingUserId.getD "") ≠ "" →
      jsTrim (p.borrowerId.getD "") ≠ "" →
      jsTrim (p.lenderId.getD "") ≠ "" →
      jsTrim (p.borrowerId.getD "") ≠ jsTrim (p.lenderId.getD "") →
      ¬(jsTrim (p.requestingUserId.getD "") ≠ jsTrim (p.borrowerId.getD "") ∧
        jsTrim (p.requestingUserId.getD "") ≠ jsTrim (p.lenderId.getD "")) →
      p.amount = some a → 0 < a →
      p.collateralAmt = some c → 0 < c →
      c / a < MIN_COLLATERAL_RATIO →
      issueLoan env s p newLoanId now =
        .error (.validation "Collateral ratio must be at least 1.50")) ∧
    issueLoan loanEnvFixture loanStoreFixture (issueLoanRequestAt 149) "L1" 0 =
      .error (.validation "Collateral ratio must be at least 1.50") ∧
    (∃ out, issueLoan loanEnvFixture loanStoreFixture (issueLoanRequestAt 150) "L1" 0 =
      .ok out) := by
  refine ⟨fun env s p newLoanId now out h => issueLoan_ok h,
    fun env s p newLoanId now a c h1 h2 h3 h4 h5 ha hapos hc hcpos hratio =>
      issueLoan_collateral_reject h1 h2 h3 h4 h5 ha hapos hc hcpos hratio, ?_, ?_⟩
  · exact issueLoan_collateral_reject (a := 100) (c := 149)
      (by decide) (by decide) (by decide) (by decide) (by decide)
      rfl (by norm_num) rfl (by norm_num) (by norm_num [ MIN_COLLATERAL_RATIO])
  · exact issueLoan_succeeds (a := 100) (c := 150)
      (by decide) (by decide) (by decide) (by decide) (by decide)
      rfl (by norm_num) rfl (by norm_num) (by norm_num [ MIN_COLLATERAL_RATIO])
      (by decide) (by decide) (by decide)

/-- C5 witness: the success-implies-ratio direction applied to the
concrete 150-collateral issuance, and the rejection direction applied
at a fresh 149-collateral request. -/
theorem loan_collateral_ratio_enforced_witness :
    issueLoan loanEnvFixture loanStoreFixture (issueLoanRequestAt 149) "L2" 5 =
      .error (.validation "Collateral ratio must be at least 1.50") ∧
    (∀ out, issueLoan loanEnvFixture loanStoreFixture (issueLoanRequestAt 150) "L1" 0 =
        .ok out →
      ∃ a c, (issueLoanRequestAt 150).amount = some a ∧
        (issueLoanRequestAt 150).collateralAmt = some c ∧ 0 < a ∧ 0 < c ∧
        MIN_COLLATERAL_RATIO ≤ c / a) :=
  ⟨loan_collateral_ratio_enforced.2.1 loanEnvFixture loanStoreFixture (issueLoanRequestAt 149)
      "L2" 5 100 149 (by decide) (by decide) (by decide) (by decide) (by decide)
      rfl (by norm_num) rfl (by norm_num) (by norm_num [ MIN_COLLATERAL_RATIO]),
   fun out h => loan_collateral_ratio_enforced.1 loanEnvFixture loanStoreFixture
      (issueLoanRequestAt 150) "L1" 0 out h⟩

/-- Looking up a loan id after the status-update `updateMany` finds the
originally found row with its status replaced. -/
theorem find?_loans_update (loans : List Loan) (lid : String) (ns : LoanStatus) {loan : Loan}
    (hfind : loans.find? (fun l => l.id == lid) = some loan) :
    (loans.map (fun l => if l.id == lid then { l with status := ns } else l)).find?
      (fun l => l.id == lid) = some { loan with status := ns } := by
  rw [List.find?_map]
  have hcong : ((fun l : Loan => l.id == lid) ∘
      (fun l => if l.id == lid then { l with status := ns } else l)) =
      (fun l : Loan => l.id == lid) := by
    funext l
    by_cases h : l.id = lid <;> simp [h]
  rw [hcong, hfind]
  have hp : loan.id = lid := by simpa using List.find?_some hfind
  simp [hp]

/-- Elaboration of a successful `recordRepayment` run: the checks that
must have passed and the exact result and store it produces. -/
theorem recordRepayment_ok {s : LoanStore} {p : RecordRepaymentRequest}
    {newRepaymentId : String} {now : Nat} {s' : LoanStore} {res : RepaymentResult}
    {evs : List (String × LoanStatus)}
    (h : recordRepayment s p newRepaymentId now = .ok (s', res, evs)) :
    jsTrim (p.requestingUserId.getD "") ≠ "" ∧
    jsTrim (p.loanId.getD "") ≠ "" ∧
    ∃ loan, s.loans.find? (fun l => l.id == jsTrim (p.loanId.getD "")) = some loan ∧
      parsePositiveDecimal p.amount "amount" = .ok res.repayment.amount ∧
      ¬(jsTrim (p.requestingUserId.getD "") ≠ loan.borrowerId ∧
        jsTrim (p.requestingUserId.getD "") ≠ loan.lenderId) ∧
      loan.status ≠ .DEFAULTED ∧
      ¬(loan.amount - totalRepaid s (jsTrim (p.loanId.getD "")) ≤ 0) ∧
      ¬(loan.amount - totalRepaid s (jsTrim (p.loanId.getD "")) < res.repayment.amount) ∧
      res.repayment.loanId = jsTrim (p.loanId.getD "") ∧
      res.repayment.id = newRepaymentId ∧
      res.outstandingBefore = loan.amount - totalRepaid s (jsTrim (p.loanId.getD "")) ∧
      res.outstandingAfter = res.outstandingBefore - res.repayment.amount ∧
      s'.repayments = s.repayments ++ [res.repayment] ∧
      s'.userIds = s.userIds ∧
      res.loanStatus = nextLoanStatus loan.status res.outstandingAfter ∧
      s'.loans = (if nextLoanStatus loan.status res.outstandingAfter ≠ loan.status
        then s.loans.map (fun l => if l.id == jsTrim (p.loanId.getD "")
          then { l with status := nextLoanStatus loan.status res.outstandingAfter } else l)
        else s.loans) ∧
      evs = (if nextLoanStatus loan.status res.outstandingAfter ≠ loan.status
        then [(jsTrim (p.loanId.getD ""), nextLoanStatus loan.status res.outstandingAfter)]
        else []) := by
  rw [recordRepayment] at h
  by_cases h1 : jsTrim (p.requestingUserId.getD "") = ""
  · simp [h1] at h
  · simp only [h1, if_false, ite_false] at h
    by_cases h2 : jsTrim (p.loanId.getD "") = ""
    · simp [h2] at h
    · simp only [h2, if_false, ite_false] at h
      cases hpa : parsePositiveDecimal p.amount "amount" with
      | error e => simp [hpa] at h
      | ok a =>
        simp only [hpa] at h
        by_cases hpd : p.paidAt = some none
        · simp [hpd] at h
        · simp only [hpd, if_false, ite_false] at h
          cases hfind : s.loans.find? (fun l => l.id == jsTrim (p.loanId.getD "")) with
          | none => simp [hfind] at h
          | some loan =>
            simp only [hfind] at h
            by_cases h5 : jsTrim (p.requestingUserId.getD "") ≠ loan.borrowerId ∧
                jsTrim (p.requestingUserId.getD "") ≠ loan.lenderId
            · simp [h5] at h
            · simp only [h5, if_false, ite_false] at h
              by_cases h6 : loan.status = .DEFAULTED
              · simp [h6] at h
              · simp only [h6, if_false, ite_false] at h
                by_cases h7 : loan.amount - totalRepaid s (jsTrim (p.loanId.getD "")) ≤ 0
                · simp [h7] at h
                · simp only [h7, if_false, ite_false] at h
                  by_cases h8 : loan.amount - totalRepaid s (jsTrim (p.loanId.getD "")) < a
                  · simp [h8] at h
                  · simp only [h8, if_false, ite_false] at h
                    by_cases hch : nextLoanStatus loan.status
                        (loan.amount - totalRepaid s (jsTrim (p.loanId.getD "")) - a) ≠
                        loan.status
                    · rw [if_pos hch] at h
                      rw [if_pos hch] at h
                      have hfind2 := find?_loans_update s.loans (jsTrim (p.loanId.getD ""))
                        (nextLoanStatus loan.status
                          (loan.amount - totalRepaid s (jsTrim (p.loanId.getD "")) - a)) hfind
                      simp only [hfind2] at h
                      obtain ⟨hs', hres, hevs⟩ := by simpa using h
                      subst hs'
                      refine ⟨h1, h2, loan, rfl, ?_⟩
                      rw [← hres]
                      refine ⟨rfl, h5, h6, h7, h8, rfl, rfl, rfl, rfl, rfl, rfl, ?_, ?_, ?_⟩
                      · rfl
                      · simp only [if_pos hch]
                        simp
                      · simp only [if_pos hch, ← hevs]
                    · rw [if_neg hch] at h
                      rw [if_neg hch] at h
                      simp only [hfind] at h
                      obtain ⟨hs', hres, hevs⟩ := by simpa using h
                      subst hs'
                      refine ⟨h1, h2, loan, rfl, ?_⟩
                      rw [← hres]
                      refine ⟨rfl, h5, h6, h7, h8, rfl, rfl, rfl, rfl, rfl, rfl, ?_, ?_, ?_⟩
                      · rw [not_not] at hch
                        simpa using hch.symm
                      · simp only [if_neg hch]
                      · simp only [if_neg hch, ← hevs]

/-- When the loan is found, the requester is a party, the loan is not
DEFAULTED, but the outstanding balance is already non-positive,
`recordRepayment` rejects with the already-repaid `ValidationError`. -/
theorem recordRepayment_already_repaid {s : LoanStore} {p : RecordRepaymentRequest}
    {newRepaymentId : String} {now : Nat} {a : ℚ} {loan : Loan}
    (h1 : jsTrim (p.requestingUserId.getD "") ≠ "")
    (h2 : jsTrim (p.loanId.getD "") ≠ "")
    (hpa : parsePositiveDecimal p.amount "amount" = .ok a)
    (hpd : p.paidAt ≠ some none)
    (hfind : s.loans.find? (fun l => l.id == jsTrim (p.loanId.getD "")) = some loan)
    (hparty : ¬(jsTrim (p.requestingUserId.getD "") ≠ loan.borrowerId ∧
      jsTrim (p.requestingUserId.getD "") ≠ loan.lenderId))
    (hdef : loan.status ≠ .DEFAULTED)
    (hout : loan.amount - totalRepaid s (jsTrim (p.loanId.getD "")) ≤ 0) :
    recordRepayment s p newRepaymentId now =
      .error (.validation "Loan is already fully repaid") := by
  rw [recordRepayment]
  simp [h1, h2, hpa, hpd, hfind, hparty, hdef, hout]

/-- Appending one repayment of the loan raises `totalRepaid` by exactly
its amount. -/
theorem totalRepaid_append {s s' : LoanStore} {lid : String} {r : Repayment}
    (hr : s'.repayments = s.repayments ++ [r]) (hrl : r.loanId = lid) :
    totalRepaid s' lid = totalRepaid s lid + r.amount := by
  unfold totalRepaid loanRepayments
  rw [hr, List.filter_append, List.foldl_append]
  simp [hrl]

/-- C4: a successful `recordRepayment` happens only on an existing,
non-DEFAULTED loan whose requester is borrower or lender, with a
positive outstanding balance and a positive repayment amount not above
it; it appends exactly one repayment row, returns
`outstandingAfter = outstandingBefore − amount` (non-negative, strictly
below the old balance), sets the status to REPAID when the balance hits
zero and otherwise to ACTIVE exactly from PENDING; and once a
repayment drives the balance to zero, a further repayment on the same
loan (well-formed inputs, same requester) fails with the already-repaid
`ValidationError`. -/
theorem loan_repayment_monotone_and_status :
    (∀ s p rid now s' res evs, recordRepayment s p rid now = .ok (s', res, evs) →
      ∃ loan, s.loans.find? (fun l => l.id == jsTrim (p.loanId.getD "")) = some loan ∧
        (jsTrim (p.requestingUserId.getD "") = loan.borrowerId ∨
          jsTrim (p.requestingUserId.getD "") = loan.lenderId) ∧
        loan.status ≠ .DEFAULTED ∧
        res.outstandingBefore = loan.amount - totalRepaid s (jsTrim (p.loanId.getD "")) ∧
        0 < res.outstandingBefore ∧
        0 < res.repayment.amount ∧
        res.repayment.amount ≤ res.outstandingBefore ∧
        s'.repayments = s.repayments ++ [res.repayment] ∧
        res.outstandingAfter = res.outstandingBefore - res.repayment.amount ∧
        0 ≤ res.outstandingAfter ∧
        res.outstandingAfter < res.outstandingBefore ∧
        (res.outstandingAfter = 0 → res.loanStatus = .REPAID) ∧
        (res.outstandingAfter ≠ 0 →
          res.loanStatus = (if loan.status = .PENDING then LoanStatus.ACTIVE else loan.status)) ∧
        (loan.status ≠ .REPAID → (res.loanStatus = .REPAID ↔ res.outstandingAfter = 0))) ∧
    (∀ s p rid now s' res evs (p2 : RecordRepaymentRequest) rid2 now2 (a2 : ℚ),
      recordRepayment s p rid now = .ok (s', res, evs) →
      res.outstandingAfter = 0 →
      jsTrim (p2.loanId.getD "") = jsTrim (p.loanId.getD "") →
      jsTrim (p2.requestingUserId.getD "") = jsTrim (p.requestingUserId.getD "") →
      parsePositiveDecimal p2.amount "amount" = .ok a2 →
      p2.paidAt ≠ some none →
      recordRepayment s' p2 rid2 now2 =
        .error (.validation "Loan is already fully repaid")) := by
  constructor
  · intro s p rid now s' res evs h
    obtain ⟨h1, h2, loan, hfind, hparse, hparty, hdef, h7, h8, hrl, hrid, hob, hoa,
      hreps, huids, hstat, hloans, hevs⟩ := recordRepayment_ok h
    obtain ⟨hpam, hapos⟩ := parsePositiveDecimal_ok hparse
    have hle : res.repayment.amount ≤ res.outstandingBefore := by
      rw [hob]
      exact not_lt.mp h8
    refine ⟨loan, hfind, ?_, hdef, hob, ?_, hapos, hle, hreps, hoa, ?_, ?_, ?_, ?_, ?_⟩
    · rcases not_and_or.mp hparty with hx | hx
      · exact Or.inl (not_not.mp hx)
      · exact Or.inr (not_not.mp hx)
    · rw [hob]
      exact lt_of_not_le h7
    · rw [hoa]
      exact sub_nonneg.mpr hle
    · rw [hoa]
      exact sub_lt_self _ hapos
    · intro hz
      rw [hstat]
      simp [nextLoanStatus, hz]
    · intro hnz
      rw [hstat]
      simp [nextLoanStatus, hnz]
    · intro hnr
      rw [hstat]
      by_cases hz : res.outstandingAfter = 0
      · simp [nextLoanStatus, hz]
      · simp only [nextLoanStatus, hz, if_false, ite_false]
        by_cases hpend : loan.status = .PENDING <;> simp [hpend, hnr, hz]
  · intro s p rid now s' res evs p2 rid2 now2 a2 h hafter hlid2 hru2 hpa2 hpd2
    obtain ⟨h1, h2, loan, hfind, hparse, hparty, hdef, h7, h8, hrl, hrid, hob, hoa,
      hreps, huids, hstat, hloans, hevs⟩ := recordRepayment_ok h
    have htr : totalRepaid s' (jsTrim (p.loanId.getD "")) =
        totalRepaid s (jsTrim (p.loanId.getD "")) + res.repayment.amount :=
      totalRepaid_append hreps hrl
    have hns : nextLoanStatus loan.status res.outstandingAfter = .REPAID := by
      simp [nextLoanStatus, hafter]
    have hzero : loan.amount -
        (totalRepaid s (jsTrim (p.loanId.getD "")) + res.repayment.amount) ≤ 0 := by
      have h0 : res.outstandingBefore - res.repayment.amount = 0 := by
        rw [← hoa]
        exact hafter
      rw [hob] at h0
      linarith
    by_cases hch : nextLoanStatus loan.status res.outstandingAfter ≠ loan.status
    · rw [if_pos hch] at hloans
      have hfind2 : s'.loans.find? (fun l => l.id == jsTrim (p2.loanId.getD "")) =
          some { loan with status := nextLoanStatus loan.status res.outstandingAfter } := by
        rw [hlid2, hloans]
        exact find?_loans_update _ _ _ hfind
      refine recordRepayment_already_repaid (a := a2) ?_ ?_ hpa2 hpd2 hfind2 ?_ ?_ ?_
      · rw [hru2]
        exact h1
      · rw [hlid2]
        exact h2
      · rw [hru2]
        simpa using hparty
      · rw [hns]
        exact (by decide : LoanStatus.REPAID ≠ LoanStatus.DEFAULTED)
      · rw [hlid2, htr]
        simpa using hzero
    · rw [if_neg hch] at hloans
      have hls : loan.status = .REPAID := by
        rw [not_not] at hch
        rw [← hch, hns]
      have hfind2 : s'.loans.find? (fun l => l.id == jsTrim (p2.loanId.getD "")) =
          some loan := by
        rw [hlid2, hloans]
        exact hfind
      refine recordRepayment_already_repaid (a := a2) ?_ ?_ hpa2 hpd2 hfind2 ?_ ?_ ?_
      · rw [hru2]
        exact h1
      · rw [hlid2]
        exact h2
      · rw [hru2]
        exact hparty
      · rw [hls]
        decide
      · rw [hlid2, htr]
        exact hzero

/-- A PENDING loan of 300 between alice and bob. -/
def loanFixture : Loan :=
  { id := "LN", borrowerId := "alice", lenderId := "bob", amount := 300,
    collateralAmt := 450, assetCode := "USDC", escrowAddress := none,
    status := .PENDING, createdAt := 0 }

/-- A loan store holding just `loanFixture`, with no repayments yet. -/
def loanStoreWithLoan : LoanStore :=
  { userIds := ["alice", "bob"], loans := [loanFixture], repayments := [] }

/-- Alice repays the full 300 at once. -/
def repayAll : RecordRepaymentRequest :=
  { requestingUserId := some "alice", loanId := some "LN", amount := some 300,
    paidAt := none }

/-- The repayment row the full repayment creates. -/
def repaymentRow1 : Repayment :=
  { id := "r1", loanId := "LN", amount := 300, paidAt := 7 }

/-- The store after the full repayment: loan REPAID, one repayment. -/
def loanStoreRepaid : LoanStore :=
  { userIds := ["alice", "bob"], loans := [{ loanFixture with status := .REPAID }],
    repayments := [repaymentRow1] }

/-- The result record of the full repayment. -/
def repayAllResult : RepaymentResult :=
  { repayment := repaymentRow1, outstandingBefore := 300, outstandingAfter := 0,
    fullyRepaid := true, loanStatus := .REPAID }

/-- The concrete full-repayment run evaluates as expected. -/
theorem recordRepayment_repayAll_run :
    recordRepayment loanStoreWithLoan repayAll "r1" 7 =
      .ok (loanStoreRepaid, repayAllResult, [("LN", LoanStatus.REPAID)]) := by
  have ht1 : jsTrim "alice" = "alice" := by decide
  have ht2 : jsTrim "LN" = "LN" := by decide
  rw [recordRepayment]
  simp +decide only [repayAll, loanStoreWithLoan, loanFixture, parsePositiveDecimal,
    totalRepaid, loanRepayments, nextLoanStatus, loanStoreRepaid, repaymentRow1,
    repayAllResult, Option.getD_some, Option.join, ht1, ht2]
  norm_num
  simp +decide [List.find?]

/-- An auth store with no rows. -/
def emptyAuthStore : AuthStore :=
  { users := [], wallets := [], challenges := [] }

/-- The identifying key of a challenge row: (walletAddress, nonce,
purpose), the unique index of the Challenge table. -/
def challengeTriple (c : Challenge) (address nonce : String)
    (purpose : ChallengePurpose) : Bool :=
  c.walletAddress == address && c.nonce == nonce && c.purpose == purpose

/-- How many rows of the store carry a given (address, nonce, purpose)
key; the schema's unique index keeps this at most 1. -/
def challengeTripleCount (s : AuthStore) (address nonce : String)
    (purpose : ChallengePurpose) : Nat :=
  (s.challenges.filter (fun c => challengeTriple c address nonce purpose)).length

/-- One consumption attempt of a fixed challenge: a signature, an
optional userId constraint, and the wall-clock time of the attempt. -/
structure ConsumeAttempt where
  signature : String
  userId : Option String
  time : Nat

/-- Run a sequence of consumption attempts against the same
(address, nonce, purpose) challenge, one after the other — the shape
every concurrent schedule linearizes to, since the conditional update
is a single atomic statement.  Returns the final store and the number
of attempts that succeeded. -/
def runConsumeAttempts (env : CryptoEnv) (address nonce : String)
    (purpose : ChallengePurpose) : AuthStore → List ConsumeAttempt → AuthStore × Nat
  | s, [] => (s, 0)
  | s, a :: rest =>
    match verifyAndConsumeChallenge env s address nonce a.signature purpose a.userId a.time with
    | .ok s₁ =>
      let r := runConsumeAttempts env address nonce purpose s₁ rest
      (r.1, r.2 + 1)
    | .error _ => runConsumeAttempts env address nonce purpose s rest

/-- A row matching the consume predicate carries the challenge's key,
is unused, and is unexpired. -/
theorem challengeMatches_spec {c : Challenge} {a n : String} {p : ChallengePurpose}
    {t : Nat} {u : Option String} (h : challengeMatches c a n p t u = true) :
    challengeTriple c a n p = true ∧ c.usedAt = none ∧ t < c.expiresAt := by
  unfold challengeMatches at h
  unfold challengeTriple
  simp only [Bool.and_eq_true, beq_iff_eq] at h ⊢
  obtain ⟨⟨⟨⟨⟨ha, hn⟩, hp⟩, hu⟩, ht⟩, _⟩ := h
  refine ⟨⟨⟨ha, hn⟩, hp⟩, ?_, by simpa using ht⟩
  simpa using hu

/-- Marking a row used does not change its key. -/
theorem challengeTriple_consume (c : Challenge) (a n a' n' : String)
    (p p' : ChallengePurpose) (t' : Nat) (u' : Option String) (now : Nat) :
    challengeTriple (if challengeMatches c a' n' p' t' u' then { c with usedAt := some now }
      else c) a n p = challengeTriple c a n p := by
  by_cases h : challengeMatches c a' n' p' t' u' <;> simp [h, challengeTriple]

/-- Elaboration of a successful `verifyAndConsumeChallenge`: exactly
one row matched, and the store is unchanged except that the matching
rows now carry `usedAt = now`. -/
theorem verifyAndConsumeChallenge_ok {env : CryptoEnv} {s : AuthStore}
    {address nonce signature : String} {purpose : ChallengePurpose}
    {userId : Option String} {now : Nat} {s₁ : AuthStore}
    (h : verifyAndConsumeChallenge env s address nonce signature purpose userId now = .ok s₁) :
    jsTrim nonce ≠ "" ∧
    (s.challenges.filter
      (fun c => challengeMatches c address (jsTrim nonce) purpose now userId)).length = 1 ∧
    s₁.users = s.users ∧ s₁.wallets = s.wallets ∧
    s₁.challenges = s.challenges.map
      (fun c => if challengeMatches c address (jsTrim nonce) purpose now userId
        then { c with usedAt := some now } else c) := by
  rw [verifyAndConsumeChallenge] at h
  by_cases hne : jsTrim nonce = ""
  · simp [hne] at h
  · simp only [hne, if_false, ite_false] at h
    cases hdec : env.decodeSignature signature with
    | none => simp [hdec] at h
    | some bytes =>
      simp only [hdec] at h
      by_cases hv : env.verify address
          (buildChallengeMessage purpose (jsTrim nonce)) bytes
      · by_cases hcount : (s.challenges.filter
            (fun c => challengeMatches c address (jsTrim nonce) purpose now userId)).length = 1
        · simp only [hv, hcount, Bool.not_true, if_false, ite_false, ne_eq,
            not_true_eq_false, Bool.not_eq_true] at h
          obtain hs₁ := by simpa using h
          rw [← hs₁]
          exact ⟨hne, hcount, rfl, rfl, rfl⟩
        · simp [hv, hcount] at h
      · simp [hv] at h

/-- After a successful consume of a key present at most once, every
row of the new store carrying that key is used. -/
theorem consume_marks_all {address nonce : String} {purpose : ChallengePurpose}
    {userId : Option String} {now : Nat} :
    ∀ l : List Challenge,
      (l.filter (fun c => challengeTriple c address nonce purpose)).length ≤ 1 →
      (l.filter (fun c => challengeMatches c address nonce purpose now userId)).length = 1 →
      ∀ c' ∈ l.map (fun c => if challengeMatches c address nonce purpose now userId
          then { c with usedAt := some now } else c),
        challengeTriple c' address nonce purpose = true → c'.usedAt ≠ none := by
  intro l
  induction l with
  | nil => simp
  | cons c cs ih =>
    intro huniq hcount c' hc' htrip
    by_cases hm : challengeMatches c address nonce purpose now userId
    · have htc : challengeTriple c address nonce purpose = true :=
        (challengeMatches_spec hm).1
      have hnil : cs.filter (fun c => challengeTriple c address nonce purpose) = [] := by
        rw [List.filter_cons_of_pos (p := fun c => challengeTriple c address nonce purpose) htc] at huniq
        simp only [List.length_cons] at huniq
        exact List.eq_nil_of_length_eq_zero (by omega)
      rw [List.map_cons, List.mem_cons] at hc'
      rcases hc' with hc' | hc'
      · rw [hc', if_pos hm]
        simp
      · exfalso
        rw [List.mem_map] at hc'
        obtain ⟨c₀, hc₀, hfc₀⟩ := hc'
        have : challengeTriple c₀ address nonce purpose = true := by
          rw [← challengeTriple_consume c₀ address nonce address nonce purpose purpose
            now userId now, hfc₀]
          exact htrip
        have hmem : c₀ ∈ cs.filter (fun c => challengeTriple c address nonce purpose) :=
          List.mem_filter.mpr ⟨hc₀, this⟩
        rw [hnil] at hmem
        exact absurd hmem (List.not_mem_nil c₀)
    · by_cases htc : challengeTriple c address nonce purpose = true
      · exfalso
        rw [List.filter_cons_of_pos (p := fun c => challengeTriple c address nonce purpose) htc] at huniq
        simp only [List.length_cons] at huniq
        have hnil : cs.filter (fun c => challengeTriple c address nonce purpose) = [] :=
          List.eq_nil_of_length_eq_zero (by omega)
        have hnil2 : cs.filter
            (fun c => challengeMatches c address nonce purpose now userId) = [] := by
          rw [List.filter_eq_nil_iff]
          intro x hx hmx
          have : x ∈ cs.filter (fun c => challengeTriple c address nonce purpose) :=
            List.mem_filter.mpr ⟨hx, (challengeMatches_spec hmx).1⟩
          rw [hnil] at this
          exact absurd this (List.not_mem_nil x)
        rw [List.filter_cons_of_neg (p := fun c => challengeMatches c address nonce purpose now userId) (by simpa using hm), hnil2] at hcount
        simp at hcount
      · rw [List.map_cons, List.mem_cons] at hc'
        rcases hc' with hc' | hc'
        · exfalso
          rw [hc', if_neg hm] at htrip
          exact htc htrip
        · have huniq' : (cs.filter
              (fun c => challengeTriple c address nonce purpose)).length ≤ 1 := by
            rwa [List.filter_cons_of_neg (p := fun c => challengeTriple c address nonce purpose) (by simpa using htc)] at huniq
          have hcount' : (cs.filter
              (fun c => challengeMatches c address nonce purpose now userId)).length = 1 := by
            rwa [List.filter_cons_of_neg (p := fun c => challengeMatches c address nonce purpose now userId) (by simpa using hm)] at hcount
          exact ih huniq' hcount' c' hc' htrip

/-- When every row carrying the key is already used, a consumption
attempt (with a decodable signature and non-blank nonce) fails with an
`UnauthorizedError`. -/
theorem consume_unauthorized_of_all_used {env : CryptoEnv} {s : AuthStore}
    {address nonce signature : String} {purpose : ChallengePurpose}
    {userId : Option String} {now : Nat}
    (hne : jsTrim nonce ≠ "")
    (hdec : (env.decodeSignature signature).isSome)
    (hused : ∀ c ∈ s.challenges,
      challengeTriple c address (jsTrim nonce) purpose = true → c.usedAt ≠ none) :
    ∃ msg, verifyAndConsumeChallenge env s address nonce signature purpose userId now =
      .error (.unauthorized msg) := by
  rw [verifyAndConsumeChallenge]
  obtain ⟨bytes, hb⟩ := Option.isSome_iff_exists.mp hdec
  by_cases hv : env.verify address (buildChallengeMessage purpose (jsTrim nonce)) bytes
  · have hnil : s.challenges.filter
        (fun c => challengeMatches c address (jsTrim nonce) purpose now userId) = [] := by
      rw [List.filter_eq_nil_iff]
      intro c hc hmc
      exact hused c hc (challengeMatches_spec hmc).1 (challengeMatches_spec hmc).2.1
    refine ⟨"Invalid or expired challenge", ?_⟩
    simp [hne, hb, hv, hnil]
  · refine ⟨"Invalid signature", ?_⟩
    simp [hne, hb, hv]

/-- When every row carrying the key is already used, no consumption
attempt whatsoever can succeed. -/
theorem consume_not_ok_of_all_used {env : CryptoEnv} {s : AuthStore}
    {address nonce signature : String} {purpose : ChallengePurpose}
    {userId : Option String} {now : Nat} {s₁ : AuthStore}
    (hused : ∀ c ∈ s.challenges,
      challengeTriple c address (jsTrim nonce) purpose = true → c.usedAt ≠ none) :
    verifyAndConsumeChallenge env s address nonce signature purpose userId now ≠ .ok s₁ := by
  intro h
  obtain ⟨hne, hcount, _, _, _⟩ := verifyAndConsumeChallenge_ok h
  have : s.challenges.filter
      (fun c => challengeMatches c address (jsTrim nonce) purpose now userId) ≠ [] := by
    intro hnil
    rw [hnil] at hcount
    simp at hcount
  obtain ⟨c, hc⟩ := List.exists_mem_of_ne_nil _ this
  have hmem := List.mem_filter.mp hc
  have hspec := challengeMatches_spec hmem.2
  exact hused c hmem.1 hspec.1 hspec.2.1

/-- Once every row of the key is used, no attempt in a run succeeds. -/
theorem runConsumeAttempts_zero_of_all_used (env : CryptoEnv) {address nonce : String}
    {purpose : ChallengePurpose} :
    ∀ (attempts : List ConsumeAttempt) (s : AuthStore),
      (∀ c ∈ s.challenges,
        challengeTriple c address (jsTrim nonce) purpose = true → c.usedAt ≠ none) →
      (runConsumeAttempts env address nonce purpose s attempts).2 = 0 := by
  intro attempts
  induction attempts with
  | nil => intro s _; rfl
  | cons a rest ih =>
    intro s hused
    rw [runConsumeAttempts]
    cases hres : verifyAndConsumeChallenge env s address nonce a.signature purpose
        a.userId a.time with
    | ok s₁ => exact absurd hres (consume_not_ok_of_all_used hused)
    | error e => exact ih s hused

/-- In any sequence of consumption attempts on the same challenge key
(present at most once, as the unique index guarantees), at most one
attempt succeeds. -/
theorem runConsumeAttempts_le_one {env : CryptoEnv} {address nonce : String}
    {purpose : ChallengePurpose} :
    ∀ (attempts : List ConsumeAttempt) (s : AuthStore),
      challengeTripleCount s address (jsTrim nonce) purpose ≤ 1 →
      (runConsumeAttempts env address nonce purpose s attempts).2 ≤ 1 := by
  intro attempts
  induction attempts with
  | nil => intro s _; exact Nat.zero_le 1
  | cons a rest ih =>
    intro s huniq
    rw [runConsumeAttempts]
    cases hres : verifyAndConsumeChallenge env s address nonce a.signature purpose
        a.userId a.time with
    | ok s₁ =>
      obtain ⟨hne, hcount, _, _, hch⟩ := verifyAndConsumeChallenge_ok hres
      have hused : ∀ c ∈ s₁.challenges,
          challengeTriple c address (jsTrim nonce) purpose = true → c.usedAt ≠ none := by
        rw [hch]
        exact consume_marks_all s.challenges huniq hcount
      have hzero := runConsumeAttempts_zero_of_all_used env rest s₁ hused
      simp [hzero]
    | error e => exact ih s huniq

/-- A crypto environment that rejects every address and signature. -/
def rejectAllEnv : CryptoEnv :=
  { isValidStellarAddress := fun _ => false, decodeSignature := fun _ => none,
    verify := fun _ _ _ => false, randomBytes := fun n => List.replicate n 0 }

/-- A crypto environment that accepts every address and signature and
draws the byte 7 for every random byte. -/
def acceptAllEnv : CryptoEnv :=
  { isValidStellarAddress := fun _ => true,
    decodeSignature := fun _ => some (List.replicate 64 0),
    verify := fun _ _ _ => true, randomBytes := fun n => List.replicate n 7 }

/-- What `generateChallenge acceptAllEnv emptyAuthStore "gabc" .LOGIN
(some "u1") 5` returns. -/
def issuedChallengeFixture : ChallengeIssued :=
  { nonce := bytesToHex (List.replicate 24 7),
    expiresAt := 5 + CHALLENGE_TTL_MS,
    message := buildChallengeMessage .LOGIN (bytesToHex (List.replicate 24 7)) }

/-- The challenge row that issue persists. -/
def issuedChallengeRow : Challenge :=
  { walletAddress := "GABC", nonce := bytesToHex (List.replicate 24 7), purpose := .LOGIN,
    userId := some "u1", expiresAt := 5 + CHALLENGE_TTL_MS, usedAt := none }

/-- The store after that issue: one unused challenge row. -/
def authStoreAfterIssue : AuthStore :=
  { users := [], wallets := [], challenges := [issuedChallengeRow] }

/-- Hex encoding doubles the byte count. -/
theorem bytesToHex_length (bytes : List Nat) : (bytesToHex bytes).length = 2 * bytes.length := by
  have h : ∀ l : List Nat,
      (l.foldr (fun b acc => hexDigit (b / 16 % 16) :: hexDigit (b % 16) :: acc) []).length =
        2 * l.length := by
    intro l
    induction l with
    | nil => rfl
    | cons b bs ih =>
      simp only [List.foldr_cons, List.length_cons, ih]
      omega
  unfold bytesToHex
  simpa [String.length] using h bytes

/-- C4 witness: after alice fully repays `loanFixture`, a second
repayment attempt on the same loan fails with the already-repaid
`ValidationError`. -/
theorem loan_repayment_monotone_and_status_witness :
    recordRepayment loanStoreRepaid repayAll "r2" 8 =
      .error (.validation "Loan is already fully repaid") :=
  loan_repayment_monotone_and_status.2 loanStoreWithLoan repayAll "r1" 7 loanStoreRepaid
    repayAllResult [("LN", LoanStatus.REPAID)] repayAll "r2" 8 300
    recordRepayment_repayAll_run rfl rfl rfl
    (by norm_num [repayAll, parsePositiveDecimal]) (by decide)

/-- C7 counterexample: on a malformed address `generateChallenge`
throws the `ValidationError` class (message "Invalid Stellar wallet
address") — the codebase has no `InvalidAddress` error class, so the
thrown error's class name is not "InvalidAddress". -/
theorem generate_challenge_invalid_address_class :
    generateChallenge rejectAllEnv emptyAuthStore "GBADADDR" .LOGIN none 0 =
      .error (.validation "Invalid Stellar wallet address") ∧
    (Err.validation "Invalid Stellar wallet address").className = "ValidationError" ∧
    "ValidationError" ≠ "InvalidAddress" :=
  ⟨rfl, rfl, by decide⟩

/-- C7 (amended): `generateChallenge` fails with
`ValidationError("Invalid Stellar wallet address")` when the address is
not a well-formed Stellar public key, fails with a `ValidationError`
when purpose is LINK_WALLET and no `userId` is supplied, and on success
returns a nonce that hex-encodes 24 random bytes (48 hex characters), a
message deterministic in (purpose, nonce), and appends one challenge
row with `usedAt = null` and `expiresAt = now + 10` minutes. -/
theorem generate_challenge_behavior :
    (∀ env s address purpose userId now,
      jsTrim address ≠ "" →
      env.isValidStellarAddress (jsToUpper (jsTrim address)) = false →
      generateChallenge env s address purpose userId now =
        .error (.validation "Invalid Stellar wallet address")) ∧
    (∀ env s address userId now,
      jsTrim address ≠ "" →
      env.isValidStellarAddress (jsToUpper (jsTrim address)) = true →
      jsTruthy userId = false →
      generateChallenge env s address .LINK_WALLET userId now =
        .error (.validation "userId is required for wallet linking challenges")) ∧
    (∀ env s address purpose userId now s' r,
      generateChallenge env s address purpose userId now = .ok (s', r) →
      r.nonce = bytesToHex (env.randomBytes 24) ∧
      ((env.randomBytes 24).length = 24 → r.nonce.length = 48) ∧
      r.message = buildChallengeMessage purpose r.nonce ∧
      r.expiresAt = now + CHALLENGE_TTL_MS ∧
      s'.users = s.users ∧ s'.wallets = s.wallets ∧
      s'.challenges = s.challenges ++
        [{ walletAddress := jsToUpper (jsTrim address), nonce := r.nonce, purpose := purpose,
           userId := userId, expiresAt := now + CHALLENGE_TTL_MS, usedAt := none }]) ∧
    CHALLENGE_TTL_MS = 10 * 60 * 1000 := by
  refine ⟨?_, ?_, ?_, rfl⟩
  · intro env s address purpose userId now hne hbad
    rw [generateChallenge]
    simp [hne, hbad]
  · intro env s address userId now hne hok huid
    rw [generateChallenge]
    simp [hne, hok, huid]
  · intro env s address purpose userId now s' r h
    rw [generateChallenge] at h
    by_cases hne : jsTrim address = ""
    · simp [hne] at h
    · simp only [hne, if_false, ite_false] at h
      by_cases hval : env.isValidStellarAddress (jsToUpper (jsTrim address))
      · by_cases hlink : (purpose == ChallengePurpose.LINK_WALLET && !jsTruthy userId) = true
        · simp [hval, hlink] at h
        · simp only [hval, hlink, Bool.not_true, if_false, ite_false, Bool.not_eq_true,
            if_neg, Bool.and_eq_true, beq_iff_eq] at h
          obtain ⟨hs', hr⟩ := by simpa using h
          subst hs'
          rw [← hr]
          refine ⟨rfl, ?_, rfl, rfl, rfl, rfl, rfl⟩
          intro hlen
          rw [bytesToHex_length, hlen]
      · simp [hval] at h

/-- The concrete successful issue evaluates as expected. -/
theorem generate_challenge_issue_run :
    generateChallenge acceptAllEnv emptyAuthStore "gabc" .LOGIN (some "u1") 5 =
      .ok (authStoreAfterIssue, issuedChallengeFixture) := by
  have ht : jsToUpper (jsTrim "gabc") = "GABC" := by decide
  rw [generateChallenge]
  simp +decide [acceptAllEnv, emptyAuthStore, authStoreAfterIssue, issuedChallengeFixture,
    issuedChallengeRow, ht]

/-- C7 witness: the invalid-address rejection, the missing-userId
rejection, and the facts of one concrete successful issue. -/
theorem generate_challenge_behavior_witness :
    generateChallenge rejectAllEnv emptyAuthStore "GBADADDR2" .LOGIN none 0 =
      .error (.validation "Invalid Stellar wallet address") ∧
    generateChallenge acceptAllEnv emptyAuthStore "gabc" .LINK_WALLET none 5 =
      .error (.validation "userId is required for wallet linking challenges") ∧
    (issuedChallengeFixture.nonce = bytesToHex (acceptAllEnv.randomBytes 24) ∧
      issuedChallengeFixture.nonce.length = 48 ∧
      authStoreAfterIssue.challenges = emptyAuthStore.challenges ++
        [{ walletAddress := jsToUpper (jsTrim "gabc"), nonce := issuedChallengeFixture.nonce,
           purpose := ChallengePurpose.LOGIN, userId := some "u1",
           expiresAt := 5 + CHALLENGE_TTL_MS, usedAt := none }]) := by
  refine ⟨generate_challenge_behavior.1 rejectAllEnv emptyAuthStore "GBADADDR2" .LOGIN none 0
      (by decide) rfl,
    generate_challenge_behavior.2.1 acceptAllEnv emptyAuthStore "gabc" none 5
      (by decide) rfl rfl, ?_⟩
  have h := generate_challenge_behavior.2.2.1 acceptAllEnv emptyAuthStore "gabc" .LOGIN
    (some "u1") 5 authStoreAfterIssue issuedChallengeFixture generate_challenge_issue_run
  exact ⟨h.1, h.2.1 rfl, h.2.2.2.2.2.2⟩

/-- An unused, unexpired LOGIN challenge row. -/
def challengeRowFixture : Challenge :=
  { walletAddress := "GABC", nonce := "abcd", purpose := .LOGIN, userId := none,
    expiresAt := 1000, usedAt := none }

/-- A store holding just `challengeRowFixture`. -/
def authStoreWithChallenge : AuthStore :=
  { users := [], wallets := [], challenges := [challengeRowFixture] }

/-- The same store after the challenge was consumed at time 10. -/
def authStoreChallengeUsed : AuthStore :=
  { users := [], wallets := [],
    challenges := [{ challengeRowFixture with usedAt := some 10 }] }

/-- C1: `verifyAndConsumeChallenge` succeeds at most once per
(address, nonce, purpose) key — after one success any further call on
the same key fails with an `UnauthorizedError`; any call for which no
row satisfies the consume predicate (already used, expired, unknown, or
mismatching `userId`) fails with an `UnauthorizedError`; and in any
sequence of consumption attempts on the same key (the linearization of
any concurrent schedule of the atomic conditional update), at most one
succeeds, with the schema's unique (address, nonce, purpose) index as
the standing hypothesis. -/
theorem challenge_consume_at_most_once :
    (∀ (env : CryptoEnv) (s : AuthStore) (address nonce : String)
        (purpose : ChallengePurpose) sig1 uid1 t1 s₁ sig2 uid2 t2,
      challengeTripleCount s address (jsTrim nonce) purpose ≤ 1 →
      verifyAndConsumeChallenge env s address nonce sig1 purpose uid1 t1 = .ok s₁ →
      (env.decodeSignature sig2).isSome →
      ∃ msg, verifyAndConsumeChallenge env s₁ address nonce sig2 purpose uid2 t2 =
        .error (.unauthorized msg)) ∧
    (∀ (env : CryptoEnv) (s : AuthStore) (address nonce : String)
        (purpose : ChallengePurpose) sig uid now,
      jsTrim nonce ≠ "" →
      (env.decodeSignature sig).isSome →
      (∀ c ∈ s.challenges,
        challengeMatches c address (jsTrim nonce) purpose now uid = false) →
      ∃ msg, verifyAndConsumeChallenge env s address nonce sig purpose uid now =
        .error (.unauthorized msg)) ∧
    (∀ (env : CryptoEnv) (address nonce : String) (purpose : ChallengePurpose)
        (s : AuthStore) (attempts : List ConsumeAttempt),
      challengeTripleCount s address (jsTrim nonce) purpose ≤ 1 →
      (runConsumeAttempts env address nonce purpose s attempts).2 ≤ 1) := by
  refine ⟨?_, ?_, fun env address nonce purpose s attempts huniq =>
    runConsumeAttempts_le_one attempts s huniq⟩
  · intro env s address nonce purpose sig1 uid1 t1 s₁ sig2 uid2 t2 huniq hrun hdec
    obtain ⟨hne, hcount, _, _, hch⟩ := verifyAndConsumeChallenge_ok hrun
    have hused : ∀ c ∈ s₁.challenges,
        challengeTriple c address (jsTrim nonce) purpose = true → c.usedAt ≠ none := by
      rw [hch]
      exact consume_marks_all s.challenges huniq hcount
    exact consume_unauthorized_of_all_used hne hdec hused
  · intro env s address nonce purpose sig uid now hne hdec hno
    rw [verifyAndConsumeChallenge]
    obtain ⟨bytes, hb⟩ := Option.isSome_iff_exists.mp hdec
    by_cases hv : env.verify address (buildChallengeMessage purpose (jsTrim nonce)) bytes
    · have hnil : s.challenges.filter
          (fun c => challengeMatches c address (jsTrim nonce) purpose now uid) = [] := by
        rw [List.filter_eq_nil_iff]
        intro c hc
        simp [hno c hc]
      refine ⟨"Invalid or expired challenge", ?_⟩
      simp [hne, hb, hv, hnil]
    · refine ⟨"Invalid signature", ?_⟩
      simp [hne, hb, hv]

/-- C1 witness: with the single fixture challenge consumed at time 10,
a second consumption attempt fails with an `UnauthorizedError`, and a
two-attempt run on the fixture store has at most one success. -/
theorem challenge_consume_at_most_once_witness :
    (∃ msg, verifyAndConsumeChallenge acceptAllEnv authStoreChallengeUsed
      "GABC" "abcd" "sig2" .LOGIN none 20 = .error (.unauthorized msg)) ∧
    (runConsumeAttempts acceptAllEnv "GABC" "abcd" .LOGIN authStoreWithChallenge
      [⟨"sig", none, 10⟩, ⟨"sig2", none, 20⟩]).2 ≤ 1 :=
  ⟨challenge_consume_at_most_once.1 acceptAllEnv authStoreWithChallenge "GABC" "abcd"
      .LOGIN "sig" none 10 authStoreChallengeUsed "sig2" none 20 (by decide) rfl rfl,
   challenge_consume_at_most_once.2.2 acceptAllEnv "GABC" "abcd" .LOGIN
      authStoreWithChallenge [⟨"sig", none, 10⟩, ⟨"sig2", none, 20⟩] (by decide)⟩

/-! ## The single-primary-wallet invariant -/

/-- Structural well-formedness the database schema enforces: user ids
and wallet ids are primary keys, hence pairwise distinct. -/
def storeWF (s : AuthStore) : Prop :=
  (s.users.map User.id).Nodup ∧ (s.wallets.map Wallet.id).Nodup

/-- The single-primary invariant: every user with at least one wallet
has exactly one wallet flagged primary, and the user's denormalized
`stellarAddress` equals that wallet's address. -/
def primaryInv (s : AuthStore) : Prop :=
  ∀ u ∈ s.users, userWallets s u.id ≠ [] →
    ∃ wp, (userWallets s u.id).filter (fun w => w.isPrimary) = [wp] ∧
      u.stellarAddress = wp.address

/-- Filtering a duplicate-free-keyed list for one key keeps exactly the
row carrying it. -/
theorem filter_beq_singleton {α : Type} {β : Type} [DecidableEq β] (f : α → β) :
    ∀ (l : List α) (t : α), (l.map f).Nodup → t ∈ l →
      l.filter (fun x => f x == f t) = [t] := by
  intro l
  induction l with
  | nil => intro t _ ht; exact absurd ht (List.not_mem_nil t)
  | cons x xs ih =>
    intro t hnd ht
    rw [List.map_cons, List.nodup_cons] at hnd
    rcases List.mem_cons.mp ht with rfl | htx
    · rw [List.filter_cons_of_pos (by simp)]
      have hnil : xs.filter (fun x => f x == f t) = [] := by
        rw [List.filter_eq_nil_iff]
        intro y hy hbeq
        exact hnd.1 (beq_iff_eq.mp hbeq ▸ List.mem_map_of_mem f hy)
      rw [hnil]
    · have hx : ¬((f x == f t) = true) := by
        intro hEq
        exact hnd.1 (beq_iff_eq.mp hEq ▸ List.mem_map_of_mem f htx)
      rw [List.filter_cons_of_neg (by simpa using hx)]
      exact ih t hnd.2 htx

/-- Elaboration of a successful `linkWallet`: the user exists, the
address and the fresh id were unused, the LINK_WALLET challenge was
consumed, and the new wallet is appended — primary, with the user's
denormalized address updated, exactly when the user had no wallet. -/
theorem linkWallet_ok {env : CryptoEnv} {s : AuthStore}
    {userId address nonce signature : String} {label : Option String}
    {newWalletId : String} {now : Nat} {s' : AuthStore} {w : Wallet}
    (h : linkWallet env s userId address nonce signature label newWalletId now =
      .ok (s', w)) :
    (s.users.find? (fun u => u.id == userId)).isSome ∧
    (∀ w₀ ∈ s.wallets, w₀.id ≠ newWalletId) ∧
    (∀ w₀ ∈ s.wallets, w₀.address ≠ jsToUpper (jsTrim address)) ∧
    w = { id := newWalletId, userId := userId, address := jsToUpper (jsTrim address),
          isPrimary := (s.wallets.filter (fun w => w.userId == userId)).length == 0,
          label := normalizeLabel label, createdAt := now } ∧
    s'.wallets = s.wallets ++ [w] ∧
    s'.users = (if (s.wallets.filter (fun w => w.userId == userId)).length == 0
      then s.users.map (fun u => if u.id == userId
        then { u with stellarAddress := jsToUpper (jsTrim address) } else u)
      else s.users) := by
  rw [linkWallet] at h
  by_cases hne : jsTrim address = ""
  · simp [hne] at h
  · simp only [hne, if_false, ite_false] at h
    by_cases hval : env.isValidStellarAddress (jsToUpper (jsTrim address))
    · simp only [hval, Bool.not_true, if_false, ite_false, Bool.not_eq_true] at h
      cases hlock : lockUserRow s userId with
      | error e => simp [hlock] at h
      | ok user =>
        simp only [hlock] at h
        cases hexist : s.wallets.find? (fun w => w.address == jsToUpper (jsTrim address)) with
        | some w₀ => simp [hexist] at h
        | none =>
          simp only [hexist, Option.isSome_none, Bool.false_eq_true, if_false, ite_false] at h
          have hnoaddr : ∀ w₀ ∈ s.wallets, w₀.address ≠ jsToUpper (jsTrim address) := by
            intro w₀ hw₀ habs
            have := List.find?_eq_none.mp hexist w₀ hw₀
            simp [habs] at this
          have hsome : (s.users.find? (fun u => u.id == userId)).isSome := by
            rw [lockUserRow] at hlock
            cases hfu : s.users.find? (fun u => u.id == userId) with
            | none => rw [hfu] at hlock; simp at hlock
            | some u => simp
          have hafter := h
          clear h
          have hmain : linkWallet.linkWalletAfterChecks env s userId
              (jsToUpper (jsTrim address)) nonce signature label newWalletId now =
              .ok (s', w) := by
            cases howner : s.users.find? (fun u => u.stellarAddress ==
                jsToUpper (jsTrim address)) with
            | none => rw [howner] at hafter; exact hafter
            | some owner =>
              rw [howner] at hafter
              by_cases hid : owner.id ≠ userId
              · simp [hid] at hafter
              · simpa [hid] using hafter
          rw [linkWallet.linkWalletAfterChecks] at hmain
          cases hcons : verifyAndConsumeChallenge env s (jsToUpper (jsTrim address)) nonce
              signature .LINK_WALLET (some userId) now with
          | error e => simp [hcons] at hmain
          | ok s₁ =>
            obtain ⟨_, _, husers1, hwallets1, _⟩ := verifyAndConsumeChallenge_ok hcons
            simp only [hcons] at hmain
            rw [hwallets1, husers1] at hmain
            cases hdup : s.wallets.find? (fun w₀ => w₀.id == newWalletId ||
                w₀.address == jsToUpper (jsTrim address)) with
            | some w₀ => simp [hdup] at hmain
            | none =>
              have hnoid : ∀ w₀ ∈ s.wallets, w₀.id ≠ newWalletId := by
                intro w₀ hw₀ habs
                have := List.find?_eq_none.mp hdup w₀ hw₀
                simp [habs] at this
              simp only [hdup, Option.isSome_none, Bool.false_eq_true, if_false,
                ite_false] at hmain
              have hx := Except.ok.inj hmain
              rw [Prod.mk.injEq] at hx
              obtain ⟨hs', hw⟩ := hx
              subst hs'
              refine ⟨hsome, hnoid, hnoaddr, hw.symm, ?_, ?_⟩
              · rw [← hw]
                by_cases hcnt : ((s.wallets.filter (fun w => w.userId == userId)).length == 0) = true
                · simp only [hcnt, if_true, ite_true]
                · simp only [hcnt, if_false, ite_false, Bool.false_eq_true]
              · by_cases hcnt : ((s.wallets.filter (fun w => w.userId == userId)).length == 0) = true
                · simp only [hcnt, if_true, ite_true]
                · simp only [hcnt, if_false, ite_false, Bool.false_eq_true]
    · simp [hval] at h

/-- Elaboration of a successful `unlinkWallet`: the wallet was among
the user's at-least-two wallets, and either it was not primary and is
simply deleted, or it was primary and a replacement was promoted (and
denormalized onto the user) before the delete. -/
theorem unlinkWallet_ok {s : AuthStore} {userId walletId : String} {s' : AuthStore}
    (h : unlinkWallet s userId walletId = .ok s') :
    ∃ wallet, (userWallets s userId).find? (fun w => w.id == walletId) = some wallet ∧
      2 ≤ (userWallets s userId).length ∧
      s'.challenges = s.challenges ∧
      ((wallet.isPrimary = false ∧ s'.users = s.users ∧
        s'.wallets = s.wallets.filter (fun w => !(w.id == walletId))) ∨
       (wallet.isPrimary = true ∧
        ∃ replacement,
          (userWallets s userId).find? (fun w => w.id != walletId) = some replacement ∧
          s'.users = s.users.map (fun u => if u.id == userId
            then { u with stellarAddress := replacement.address } else u) ∧
          s'.wallets = ((s.wallets.map (fun w => if w.userId == userId
              then { w with isPrimary := false } else w)).map
            (fun w => if w.id == replacement.id then { w with isPrimary := true } else w)).filter
            (fun w => !(w.id == walletId)))) := by
  rw [unlinkWallet] at h
  cases hlock : lockUserRow s userId with
  | error e => simp [hlock] at h
  | ok user =>
    simp only [hlock] at h
    cases hfind : (userWallets s userId).find? (fun w => w.id == walletId) with
    | none => simp [hfind] at h
    | some wallet =>
      simp only [hfind] at h
      by_cases hlen : (userWallets s userId).length ≤ 1
      · simp [hlen] at h
      · simp only [hlen, if_false, ite_false] at h
        by_cases hprim : wallet.isPrimary = true
        · cases hrep : (userWallets s userId).find? (fun w => w.id != walletId) with
          | none => simp [hprim, hrep] at h
          | some replacement =>
            simp only [hprim, hrep, if_true, ite_true] at h
            have hx := Except.ok.inj h
            refine ⟨wallet, rfl, by omega, ?_, Or.inr ⟨hprim, replacement, rfl, ?_, ?_⟩⟩
            · rw [← hx]
            · rw [← hx]
            · rw [← hx]
        · simp only [hprim, if_false, ite_false, Bool.not_eq_true] at h
          have hx := Except.ok.inj h
          refine ⟨wallet, rfl, by omega, ?_,
            Or.inl ⟨by simpa using hprim, ?_, ?_⟩⟩
          · rw [← hx]
          · rw [← hx]
          · rw [← hx]

/-- Elaboration of a successful `setPrimaryWallet`: the wallet belongs
to the user; all the user's wallets are cleared, the target set
primary, and its address denormalized onto the user. -/
theorem setPrimaryWallet_ok {s : AuthStore} {userId walletId : String}
    {s' : AuthStore} {w : Wallet}
    (h : setPrimaryWallet s userId walletId = .ok (s', w)) :
    ∃ target, s.wallets.find? (fun w => w.id == walletId && w.userId == userId) =
        some target ∧
      w = { target with isPrimary := true } ∧
      s'.challenges = s.challenges ∧
      s'.wallets = (s.wallets.map (fun w => if w.userId == userId
          then { w with isPrimary := false } else w)).map
        (fun w => if w.id == walletId then { w with isPrimary := true } else w) ∧
      s'.users = s.users.map (fun u => if u.id == userId
        then { u with stellarAddress := target.address } else u) := by
  rw [setPrimaryWallet] at h
  cases hlock : lockUserRow s userId with
  | error e => simp [hlock] at h
  | ok user =>
    simp only [hlock] at h
    cases hfind : s.wallets.find? (fun w => w.id == walletId && w.userId == userId) with
    | none => simp [hfind] at h
    | some target =>
      simp only [hfind] at h
      have hx := Except.ok.inj h
      rw [Prod.mk.injEq] at hx
      obtain ⟨hs', hw⟩ := hx
      refine ⟨target, rfl, hw.symm, ?_, ?_, ?_⟩
      · rw [← hs']
      · rw [← hs']
      · rw [← hs']

/-- A wallet map that keeps ids keeps the id listing. -/
theorem map_preserves_wallet_ids (f : Wallet → Wallet) (hf : ∀ x, (f x).id = x.id)
    (l : List Wallet) : (l.map f).map Wallet.id = l.map Wallet.id := by
  rw [List.map_map]
  exact List.map_congr_left fun x _ => hf x

/-- A user map that keeps ids keeps the id listing. -/
theorem map_preserves_user_ids (f : User → User) (hf : ∀ x, (f x).id = x.id)
    (l : List User) : (l.map f).map User.id = l.map User.id := by
  rw [List.map_map]
  exact List.map_congr_left fun x _ => hf x

/-- Filtering by owner commutes with a wallet map that keeps owners. -/
theorem filter_userId_map (f : Wallet → Wallet) (hf : ∀ x, (f x).userId = x.userId)
    (l : List Wallet) (uid : String) :
    (l.map f).filter (fun w => w.userId == uid) =
      (l.filter (fun w => w.userId == uid)).map f := by
  rw [List.filter_map]
  congr 1
  apply List.filter_congr
  intro x _
  simp only [Function.comp_apply, hf x]

/-- Filtering keeps wallet-id distinctness. -/
theorem nodup_ids_filter {l : List Wallet} (h : (l.map Wallet.id).Nodup)
    (p : Wallet → Bool) : ((l.filter p).map Wallet.id).Nodup :=
  List.Nodup.sublist (List.Sublist.map Wallet.id (List.filter_sublist l)) h

/-- With distinct wallet ids, rows of the store sharing an id are the
same row. -/
theorem wallet_id_inj {l : List Wallet} (h : (l.map Wallet.id).Nodup)
    {x y : Wallet} (hx : x ∈ l) (hy : y ∈ l) (hid : x.id = y.id) : x = y :=
  List.inj_on_of_nodup_map h hx hy hid

/-- `linkWallet` preserves well-formedness and the single-primary
invariant, and flags the new wallet primary (updating the denormalized
address) exactly when the user previously had no wallet. -/
theorem linkWallet_preserves {env : CryptoEnv} {s : AuthStore}
    {userId address nonce signature : String} {label : Option String}
    {newWalletId : String} {now : Nat} {s' : AuthStore} {w : Wallet}
    (hwf : storeWF s) (hinv : primaryInv s)
    (h : linkWallet env s userId address nonce signature label newWalletId now =
      .ok (s', w)) :
    storeWF s' ∧ primaryInv s' ∧
    (w.isPrimary = true ↔ userWallets s userId = []) ∧
    (userWallets s userId ≠ [] → s'.users = s.users) := by
  obtain ⟨hsome, hnoid, hnoaddr, hw, hwallets, husers⟩ := linkWallet_ok h
  have hcnt_iff : ((s.wallets.filter (fun w => w.userId == userId)).length == 0) = true ↔
      userWallets s userId = [] := by
    rw [Nat.beq_eq_true_eq]
    rw [userWallets]
    exact List.length_eq_zero
  have hwid : w.id = newWalletId := by rw [hw]
  have hwuid : w.userId = userId := by rw [hw]
  have hwaddr : w.address = jsToUpper (jsTrim address) := by rw [hw]
  have hwprim : w.isPrimary = ((s.wallets.filter (fun w => w.userId == userId)).length == 0) := by
    rw [hw]
  have husers_ids : s'.users.map User.id = s.users.map User.id := by
    rw [husers]
    by_cases hcnt : ((s.wallets.filter (fun w => w.userId == userId)).length == 0) = true
    · rw [if_pos hcnt]
      apply map_preserves_user_ids
      intro x
      by_cases hx : x.id == userId <;> simp [hx]
    · rw [if_neg hcnt]
  refine ⟨⟨?_, ?_⟩, ?_, ?_, ?_⟩
  · rw [husers_ids]
    exact hwf.1
  · rw [hwallets, List.map_append]
    rw [List.nodup_append]
    refine ⟨hwf.2, by simp, ?_⟩
    intro a ha hb
    simp only [List.map_cons, List.map_nil, List.mem_singleton] at hb
    obtain ⟨w₀, hw₀, hid₀⟩ := List.mem_map.mp ha
    rw [hb, hwid] at hid₀
    exact hnoid w₀ hw₀ hid₀
  · -- primaryInv s'
    intro u' hu' hne'
    have hlu : ∀ x : String, userWallets s' x =
        userWallets s x ++ (if w.userId == x then [w] else []) := by
      intro x
      rw [userWallets, userWallets, hwallets, List.filter_append]
      congr 1
      by_cases hx : w.userId == x <;> simp [hx]
    by_cases hcnt : ((s.wallets.filter (fun w => w.userId == userId)).length == 0) = true
    · -- first wallet: new wallet becomes primary
      rw [husers, if_pos hcnt] at hu'
      obtain ⟨u₀, hu₀, hupd⟩ := List.mem_map.mp hu'
      by_cases hid : (u₀.id == userId) = true
      · rw [if_pos hid] at hupd
        have hid' : u₀.id = userId := by simpa using hid
        refine ⟨w, ?_, ?_⟩
        · rw [← hupd]
          show (userWallets s' u₀.id).filter (fun w => w.isPrimary) = [w]
          rw [hlu u₀.id, hid', hcnt_iff.mp hcnt, hwuid]
          simp only [beq_self_eq_true, if_true, ite_true, List.nil_append]
          have : w.isPrimary = true := by rw [hwprim]; exact hcnt
          simp [this]
        · rw [← hupd, hwaddr]
      · rw [if_neg hid] at hupd
        rw [← hupd] at hne' ⊢
        have hid' : ¬(u₀.id = userId) := by simpa using hid
        have hsame : userWallets s' u₀.id = userWallets s u₀.id := by
          rw [hlu u₀.id, hwuid]
          have : (userId == u₀.id) = false := by
            simp only [beq_eq_false_iff_ne, ne_eq]
            exact fun hEq => hid' hEq.symm
          simp [this]
        rw [hsame] at hne' ⊢
        exact hinv u₀ hu₀ hne'
    · -- the user already had wallets: nothing changes for anyone
      rw [husers, if_neg hcnt] at hu'
      by_cases hid : (u'.id == userId) = true
      · have hid' : u'.id = userId := by simpa using hid
        have hne0 : userWallets s userId ≠ [] := fun hnil => hcnt (hcnt_iff.mpr hnil)
        obtain ⟨wp, hwp, haddr⟩ := hinv u' hu' (by rw [hid']; exact hne0)
        refine ⟨wp, ?_, haddr⟩
        rw [hlu u'.id, hid', hwuid]
        simp only [beq_self_eq_true, if_true, ite_true]
        rw [List.filter_append]
        have : w.isPrimary = false := by
          rw [hwprim]
          simpa using hcnt
        simp only [this, List.filter_cons, List.filter_nil, Bool.false_eq_true, if_false,
          ite_false, List.append_nil]
        rw [← hid']
        exact hwp
      · have hid' : ¬(u'.id = userId) := by simpa using hid
        have hsame : userWallets s' u'.id = userWallets s u'.id := by
          rw [hlu u'.id, hwuid]
          have : (userId == u'.id) = false := by
            simp only [beq_eq_false_iff_ne, ne_eq]
            exact fun hEq => hid' hEq.symm
          simp [this]
        rw [hsame] at hne' ⊢
        exact hinv u' hu' hne'
  · rw [hwprim]
    exact hcnt_iff
  · intro hne0
    rw [husers, if_neg (fun hcnt => hne0 (hcnt_iff.mp hcnt))]

/-- `setPrimaryWallet` preserves well-formedness and the
single-primary invariant. -/
theorem setPrimaryWallet_preserves {s : AuthStore} {userId walletId : String}
    {s' : AuthStore} {w : Wallet}
    (hwf : storeWF s) (hinv : primaryInv s)
    (h : setPrimaryWallet s userId walletId = .ok (s', w)) :
    storeWF s' ∧ primaryInv s' := by
  obtain ⟨target, hfind, hw, hch, hwallets, husers⟩ := setPrimaryWallet_ok h
  have hpred := List.find?_some hfind
  have htid : target.id = walletId := by
    simp only [Bool.and_eq_true, beq_iff_eq] at hpred
    exact hpred.1
  have htuid : target.userId = userId := by
    simp only [Bool.and_eq_true, beq_iff_eq] at hpred
    exact hpred.2
  have htm : target ∈ s.wallets := List.mem_of_find?_eq_some hfind
  have hg1id : ∀ x : Wallet,
      ((if x.userId == userId then { x with isPrimary := false } else x) : Wallet).id = x.id := by
    intro x
    by_cases hx : x.userId == userId <;> simp [hx]
  have hg2id : ∀ x : Wallet,
      ((if x.id == walletId then { x with isPrimary := true } else x) : Wallet).id = x.id := by
    intro x
    by_cases hx : x.id == walletId <;> simp [hx]
  have hg1uid : ∀ x : Wallet,
      ((if x.userId == userId then { x with isPrimary := false } else x) : Wallet).userId =
        x.userId := by
    intro x
    by_cases hx : x.userId == userId <;> simp [hx]
  have hg2uid : ∀ x : Wallet,
      ((if x.id == walletId then { x with isPrimary := true } else x) : Wallet).userId =
        x.userId := by
    intro x
    by_cases hx : x.id == walletId <;> simp [hx]
  have hlu : ∀ x : String, userWallets s' x =
      ((userWallets s x).map (fun w => if w.userId == userId
        then { w with isPrimary := false } else w)).map
        (fun w => if w.id == walletId then { w with isPrimary := true } else w) := by
    intro x
    rw [userWallets, hwallets, filter_userId_map _ hg2uid, filter_userId_map _ hg1uid,
      userWallets]
  refine ⟨⟨?_, ?_⟩, ?_⟩
  · rw [husers]
    rw [map_preserves_user_ids]
    · exact hwf.1
    · intro x
      by_cases hx : x.id == userId <;> simp [hx]
  · rw [hwallets, map_preserves_wallet_ids _ hg2id, map_preserves_wallet_ids _ hg1id]
    exact hwf.2
  · intro u' hu' hne'
    rw [husers] at hu'
    obtain ⟨u₀, hu₀, hupd⟩ := List.mem_map.mp hu'
    by_cases hid : (u₀.id == userId) = true
    · rw [if_pos hid] at hupd
      have hid' : u₀.id = userId := by simpa using hid
      have htmem : target ∈ userWallets s userId :=
        List.mem_filter.mpr ⟨htm, by simp [htuid]⟩
      have hnodup : ((userWallets s userId).map Wallet.id).Nodup :=
        nodup_ids_filter hwf.2 _
      refine ⟨{ target with isPrimary := true }, ?_, ?_⟩
      · rw [← hupd]
        show (userWallets s' u₀.id).filter (fun w => w.isPrimary) = _
        rw [hlu u₀.id, hid']
        rw [List.filter_map, List.filter_map]
        have hcong : (userWallets s userId).filter
            ((((fun w : Wallet => w.isPrimary) ∘
              (fun w => if w.id == walletId then { w with isPrimary := true } else w)) ∘
              (fun w => if w.userId == userId then { w with isPrimary := false } else w))) =
            (userWallets s userId).filter (fun x => x.id == target.id) := by
          apply List.filter_congr
          intro x hx
          have hxu : (x.userId == userId) = true := (List.mem_filter.mp hx).2
          simp only [Function.comp_apply, hxu, if_true, ite_true]
          rw [htid]
          by_cases hxi : (x.id == walletId) = true <;> simp [hxi]
        rw [hcong, filter_beq_singleton Wallet.id (userWallets s userId) target hnodup htmem]
        simp [htid, htuid]
      · rw [← hupd]
    · rw [if_neg hid] at hupd
      rw [← hupd] at hne' ⊢
      have hid' : ¬(u₀.id = userId) := by simpa using hid
      have hsame : userWallets s' u₀.id = userWallets s u₀.id := by
        rw [hlu u₀.id]
        have hstep1 : (userWallets s u₀.id).map (fun w => if w.userId == userId
            then { w with isPrimary := false } else w) = userWallets s u₀.id := by
          have := List.map_congr_left (l := userWallets s u₀.id)
            (f := fun w : Wallet => if w.userId == userId
              then { w with isPrimary := false } else w) (g := id) ?_
          · simpa using this
          · intro x hx
            have hxu : (x.userId == u₀.id) = true := (List.mem_filter.mp hx).2
            have : ¬(x.userId == userId) = true := by
              simp only [beq_iff_eq] at hxu ⊢
              rw [hxu]
              exact hid'
            simp [this]
        rw [hstep1]
        have := List.map_congr_left (l := userWallets s u₀.id)
          (f := fun w : Wallet => if w.id == walletId
            then { w with isPrimary := true } else w) (g := id) ?_
        · simpa using this
        · intro x hx
          have hxmem : x ∈ s.wallets := (List.mem_filter.mp hx).1
          have hxu : (x.userId == u₀.id) = true := (List.mem_filter.mp hx).2
          have : ¬(x.id == walletId) = true := by
            simp only [beq_iff_eq]
            intro hEq
            have hxt : x = target := wallet_id_inj hwf.2 hxmem htm (by rw [hEq, htid])
            rw [hxt] at hxu
            simp only [beq_iff_eq] at hxu
            rw [htuid] at hxu
            exact hid' hxu.symm
          simp [this]
      rw [hsame] at hne' ⊢
      exact hinv u₀ hu₀ hne'

/-- Two filters over the same list commute. -/
theorem filter_swap {α : Type} (p q : α → Bool) (l : List α) :
    (l.filter q).filter p = (l.filter p).filter q := by
  rw [List.filter_filter, List.filter_filter]
  apply List.filter_congr
  intro a _
  rw [Bool.and_comm]

/-- Filtering commutes with a wallet map that keeps the filtered
field. -/
theorem filter_pred_map (f : Wallet → Wallet) (p : Wallet → Bool)
    (hf : ∀ x, p (f x) = p x) (l : List Wallet) :
    (l.map f).filter p = (l.filter p).map f := by
  rw [List.filter_map]
  congr 1
  apply List.filter_congr
  intro x _
  simp only [Function.comp_apply, hf x]

/-- `unlinkWallet` preserves well-formedness and the single-primary
invariant. -/
theorem unlinkWallet_preserves {s : AuthStore} {userId walletId : String} {s' : AuthStore}
    (hwf : storeWF s) (hinv : primaryInv s)
    (h : unlinkWallet s userId walletId = .ok s') :
    storeWF s' ∧ primaryInv s' := by
  obtain ⟨wallet, hfind, hlen, hch, hcase⟩ := unlinkWallet_ok h
  have hwmem_l : wallet ∈ userWallets s userId := List.mem_of_find?_eq_some hfind
  have hwid : wallet.id = walletId := by
    have := List.find?_some hfind
    simpa using this
  have hwmem : wallet ∈ s.wallets := (List.mem_filter.mp hwmem_l).1
  have hwuid : (wallet.userId == userId) = true := (List.mem_filter.mp hwmem_l).2
  rcases hcase with ⟨hnp, husers, hwallets⟩ | ⟨hp, replacement, hrep, husers, hwallets⟩
  · -- non-primary wallet simply deleted
    have hlu : ∀ x : String, userWallets s' x =
        (userWallets s x).filter (fun w => !(w.id == walletId)) := by
      intro x
      rw [userWallets, hwallets, filter_swap, userWallets]
    refine ⟨⟨by rw [husers]; exact hwf.1, by rw [hwallets]; exact nodup_ids_filter hwf.2 _⟩, ?_⟩
    intro u' hu' hne'
    rw [husers] at hu'
    by_cases hid : (u'.id == userId) = true
    · have hid' : u'.id = userId := by simpa using hid
      have hne0 : userWallets s userId ≠ [] := by
        intro hnil
        rw [hnil] at hlen
        simp at hlen
      obtain ⟨wp, hwp, haddr⟩ := hinv u' hu' (by rw [hid']; exact hne0)
      have hwpmem : wp ∈ (userWallets s u'.id).filter (fun w => w.isPrimary) := by
        rw [hwp]
        exact List.mem_singleton.mpr rfl
      have hwpl : wp ∈ userWallets s u'.id := (List.mem_filter.mp hwpmem).1
      have hwpprim : wp.isPrimary = true := (List.mem_filter.mp hwpmem).2
      have hwpne : wp.id ≠ walletId := by
        intro hEq
        have : wp = wallet := wallet_id_inj hwf.2 (List.mem_filter.mp hwpl).1 hwmem
          (by rw [hEq, hwid])
        rw [this] at hwpprim
        rw [hnp] at hwpprim
        exact Bool.false_ne_true hwpprim
      refine ⟨wp, ?_, haddr⟩
      rw [hlu u'.id, filter_swap, hwp]
      simp [hwpne]
    · have hid' : ¬(u'.id = userId) := by simpa using hid
      have hsame : userWallets s' u'.id = userWallets s u'.id := by
        rw [hlu u'.id]
        rw [List.filter_eq_self]
        intro x hx
        simp only [Bool.not_eq_eq_eq_not, Bool.not_true, beq_eq_false_iff_ne, ne_eq]
        intro hEq
        have hxw : x = wallet := wallet_id_inj hwf.2 (List.mem_filter.mp hx).1 hwmem
          (by rw [hEq, hwid])
        have hxu : (x.userId == u'.id) = true := (List.mem_filter.mp hx).2
        rw [hxw] at hxu
        simp only [beq_iff_eq] at hxu hwuid
        exact hid' (by rw [← hxu, hwuid])
      rw [hsame] at hne' ⊢
      exact hinv u' hu' hne'
  · -- primary wallet: replacement promoted first
    have hrmem_l : replacement ∈ userWallets s userId := List.mem_of_find?_eq_some hrep
    have hrne : replacement.id ≠ walletId := by
      have := List.find?_some hrep
      simpa using this
    have hrmem : replacement ∈ s.wallets := (List.mem_filter.mp hrmem_l).1
    have hruid : (replacement.userId == userId) = true := (List.mem_filter.mp hrmem_l).2
    have hg1id : ∀ x : Wallet,
        ((if x.userId == userId then { x with isPrimary := false } else x) : Wallet).id =
          x.id := by
      intro x
      by_cases hx : x.userId == userId <;> simp [hx]
    have hg2id : ∀ x : Wallet,
        ((if x.id == replacement.id then { x with isPrimary := true } else x) : Wallet).id =
          x.id := by
      intro x
      by_cases hx : x.id == replacement.id <;> simp [hx]
    have hg1uid : ∀ x : Wallet,
        ((if x.userId == userId then { x with isPrimary := false } else x) : Wallet).userId =
          x.userId := by
      intro x
      by_cases hx : x.userId == userId <;> simp [hx]
    have hg2uid : ∀ x : Wallet,
        ((if x.id == replacement.id then { x with isPrimary := true } else x) : Wallet).userId =
          x.userId := by
      intro x
      by_cases hx : x.id == replacement.id <;> simp [hx]
    have hlu : ∀ x : String, userWallets s' x =
        ((((userWallets s x).map (fun w => if w.userId == userId
            then { w with isPrimary := false } else w)).map
          (fun w => if w.id == replacement.id then { w with isPrimary := true } else w)).filter
          (fun w => !(w.id == walletId))) := by
      intro x
      simp only [userWallets]
      rw [hwallets, filter_swap, filter_userId_map _ hg2uid, filter_userId_map _ hg1uid]
    refine ⟨⟨?_, ?_⟩, ?_⟩
    · rw [husers]
      rw [map_preserves_user_ids]
      · exact hwf.1
      · intro x
        by_cases hx : x.id == userId <;> simp [hx]
    · rw [hwallets]
      apply nodup_ids_filter
      rw [map_preserves_wallet_ids _ hg2id, map_preserves_wallet_ids _ hg1id]
      exact hwf.2
    · intro u' hu' hne'
      rw [husers] at hu'
      obtain ⟨u₀, hu₀, hupd⟩ := List.mem_map.mp hu'
      by_cases hid : (u₀.id == userId) = true
      · rw [if_pos hid] at hupd
        have hid' : u₀.id = userId := by simpa using hid
        have hnodup : (((userWallets s userId).filter
            (fun w => !(w.id == walletId))).map Wallet.id).Nodup :=
          nodup_ids_filter (nodup_ids_filter hwf.2 _) _
        have hrmem2 : replacement ∈ (userWallets s userId).filter
            (fun w => !(w.id == walletId)) :=
          List.mem_filter.mpr ⟨hrmem_l, by simp [hrne]⟩
        refine ⟨{ replacement with isPrimary := true }, ?_, by rw [← hupd]⟩
        rw [← hupd]
        show (userWallets s' u₀.id).filter (fun w => w.isPrimary) = _
        rw [hlu u₀.id, hid']
        rw [filter_pred_map (fun w => if w.id == replacement.id
              then { w with isPrimary := true } else w)
            (fun w => !(w.id == walletId)) (fun y => by simp only [hg2id y]),
          filter_pred_map (fun w => if w.userId == userId
              then { w with isPrimary := false } else w)
            (fun w => !(w.id == walletId)) (fun y => by simp only [hg1id y])]
        rw [List.filter_map, List.filter_map]
        have hcong : ((userWallets s userId).filter (fun w => !(w.id == walletId))).filter
            ((((fun w : Wallet => w.isPrimary) ∘
              (fun w => if w.id == replacement.id then { w with isPrimary := true } else w)) ∘
              (fun w => if w.userId == userId then { w with isPrimary := false } else w))) =
            ((userWallets s userId).filter (fun w => !(w.id == walletId))).filter
              (fun x => x.id == replacement.id) := by
          apply List.filter_congr
          intro x hx
          have hxu : (x.userId == userId) = true :=
            (List.mem_filter.mp (List.mem_filter.mp hx).1).2
          simp only [Function.comp_apply, hxu, if_true, ite_true]
          by_cases hxi : (x.id == replacement.id) = true <;> simp [hxi]
        rw [hcong,
          filter_beq_singleton Wallet.id _ replacement hnodup hrmem2]
        have hru : replacement.userId = userId := by simpa using hruid
        simp [hru]
      · rw [if_neg hid] at hupd
        rw [← hupd] at hne' ⊢
        have hid' : ¬(u₀.id = userId) := by simpa using hid
        have hsame : userWallets s' u₀.id = userWallets s u₀.id := by
          rw [hlu u₀.id]
          have hstep1 : (userWallets s u₀.id).map (fun w => if w.userId == userId
              then { w with isPrimary := false } else w) = userWallets s u₀.id := by
            have := List.map_congr_left (l := userWallets s u₀.id)
              (f := fun w : Wallet => if w.userId == userId
                then { w with isPrimary := false } else w) (g := id) ?_
            · simpa using this
            · intro x hx
              have hxu : (x.userId == u₀.id) = true := (List.mem_filter.mp hx).2
              have : ¬(x.userId == userId) = true := by
                simp only [beq_iff_eq] at hxu ⊢
                rw [hxu]
                exact hid'
              simp [this]
          rw [hstep1]
          have hstep2 : (userWallets s u₀.id).map (fun w => if w.id == replacement.id
              then { w with isPrimary := true } else w) = userWallets s u₀.id := by
            have := List.map_congr_left (l := userWallets s u₀.id)
              (f := fun w : Wallet => if w.id == replacement.id
                then { w with isPrimary := true } else w) (g := id) ?_
            · simpa using this
            · intro x hx
              have hxmem : x ∈ s.wallets := (List.mem_filter.mp hx).1
              have hxu : (x.userId == u₀.id) = true := (List.mem_filter.mp hx).2
              have : ¬(x.id == replacement.id) = true := by
                simp only [beq_iff_eq]
                intro hEq
                have hxr : x = replacement := wallet_id_inj hwf.2 hxmem hrmem hEq
                rw [hxr] at hxu
                simp only [beq_iff_eq] at hxu hruid
                exact hid' (by rw [← hxu, hruid])
              simp [this]
          rw [hstep2]
          rw [List.filter_eq_self]
          intro x hx
          simp only [Bool.not_eq_eq_eq_not, Bool.not_true, beq_eq_false_iff_ne, ne_eq]
          intro hEq
          have hxw : x = wallet := wallet_id_inj hwf.2 (List.mem_filter.mp hx).1 hwmem
            (by rw [hEq, hwid])
          have hxu : (x.userId == u₀.id) = true := (List.mem_filter.mp hx).2
          rw [hxw] at hxu
          simp only [beq_iff_eq] at hxu hwuid
          exact hid' (by rw [← hxu, hwuid])
        rw [hsame] at hne' ⊢
        exact hinv u₀ hu₀ hne'

/-- The primary wallet row of `primaryStoreFixture`. -/
def primaryWalletFixture : Wallet :=
  { id := "w1", userId := "u1", address := "GADDR1", isPrimary := true,
    label := none, createdAt := 0 }

/-- The secondary wallet row of `primaryStoreFixture`. -/
def secondaryWalletFixture : Wallet :=
  { id := "w2", userId := "u1", address := "GADDR2", isPrimary := false,
    label := none, createdAt := 1 }

/-- The single user row of `primaryStoreFixture`. -/
def primaryUserFixture : User :=
  { id := "u1", stellarAddress := "GADDR1" }

/-- A well-formed store: one user owning two wallets, the first
primary and denormalized onto the user. -/
def primaryStoreFixture : AuthStore :=
  { users := [primaryUserFixture],
    wallets := [primaryWalletFixture, secondaryWalletFixture],
    challenges := [] }

/-- `primaryStoreFixture` after unlinking the secondary wallet `w2`. -/
def primaryStoreFixtureUnlinked : AuthStore :=
  { users := [primaryUserFixture],
    wallets := [primaryWalletFixture],
    challenges := [] }

/-- C2: on a store with distinct user and wallet ids satisfying the
single-primary invariant — every user owning at least one wallet has
exactly one wallet flagged primary and their denormalized address
equals that wallet's address — each of `linkWallet`, `unlinkWallet`
and `setPrimaryWallet` preserves distinctness and the invariant on
success; moreover `linkWallet` flags the new wallet primary exactly
when the user previously had zero wallets, and leaves the user rows
(hence the denormalized address) untouched when the user already had
a wallet. -/
theorem wallet_primary_invariant_preserved (s : AuthStore)
    (hwf : storeWF s) (hinv : primaryInv s) :
    (∀ (env : CryptoEnv) (userId address nonce signature : String)
        (label : Option String) (newWalletId : String) (now : Nat)
        (s' : AuthStore) (w : Wallet),
      linkWallet env s userId address nonce signature label newWalletId now =
          .ok (s', w) →
        storeWF s' ∧ primaryInv s' ∧
        (w.isPrimary = true ↔ userWallets s userId = []) ∧
        (userWallets s userId ≠ [] → s'.users = s.users)) ∧
    (∀ (userId walletId : String) (s' : AuthStore),
      unlinkWallet s userId walletId = .ok s' →
        storeWF s' ∧ primaryInv s') ∧
    (∀ (userId walletId : String) (s' : AuthStore) (w : Wallet),
      setPrimaryWallet s userId walletId = .ok (s', w) →
        storeWF s' ∧ primaryInv s') := by
  refine ⟨?_, ?_, ?_⟩
  · intro env userId address nonce signature label newWalletId now s' w h
    exact linkWallet_preserves hwf hinv h
  · intro userId walletId s' h
    exact unlinkWallet_preserves hwf hinv h
  · intro userId walletId s' w h
    exact setPrimaryWallet_preserves hwf hinv h

/-- The invariant-preservation theorem applied to a concrete store:
unlinking the non-primary wallet keeps the invariant. -/
theorem wallet_primary_invariant_preserved_witness :
    storeWF primaryStoreFixture ∧ primaryInv primaryStoreFixture ∧
    unlinkWallet primaryStoreFixture "u1" "w2" = .ok primaryStoreFixtureUnlinked ∧
    (storeWF primaryStoreFixtureUnlinked ∧ primaryInv primaryStoreFixtureUnlinked) := by
  have hwf : storeWF primaryStoreFixture := ⟨by decide, by decide⟩
  have hinv : primaryInv primaryStoreFixture := by
    intro u hu hne
    have hu' : u = primaryUserFixture := by
      simpa [primaryStoreFixture] using hu
    subst hu'
    exact ⟨primaryWalletFixture, by decide, rfl⟩
  have hrun : unlinkWallet primaryStoreFixture "u1" "w2" =
      .ok primaryStoreFixtureUnlinked := by rfl
  exact ⟨hwf, hinv, hrun,
    (wallet_primary_invariant_preserved primaryStoreFixture hwf hinv).2.1
      "u1" "w2" primaryStoreFixtureUnlinked hrun⟩

/-- C8: `unlinkWallet` on a store with distinct wallet ids: with the
user row present, it fails `NotFoundError("Wallet not found")` when
`walletId` is not among the user's wallets, and fails
`ValidationError("Cannot unlink the only wallet")` when it is but the
user has only that wallet; and when it succeeds on a wallet that was
the user's primary, the result holds no wallet with that id while some
other wallet of the user is flagged primary with the user's
denormalized address updated to it — the promotion and the delete land
in the same atomic step. -/
theorem unlinkWallet_error_and_replacement (s : AuthStore) (userId walletId : String)
    (hwf : storeWF s) :
    (∀ u, lockUserRow s userId = .ok u →
      (userWallets s userId).find? (fun w => w.id == walletId) = none →
      unlinkWallet s userId walletId = .error (.notFound "Wallet not found")) ∧
    (∀ u wallet, lockUserRow s userId = .ok u →
      (userWallets s userId).find? (fun w => w.id == walletId) = some wallet →
      (userWallets s userId).length ≤ 1 →
      unlinkWallet s userId walletId =
        .error (.validation "Cannot unlink the only wallet")) ∧
    (∀ s', unlinkWallet s userId walletId = .ok s' →
      ∀ wallet ∈ userWallets s userId, wallet.id = walletId →
        wallet.isPrimary = true →
        (∀ w' ∈ userWallets s' userId, w'.id ≠ walletId) ∧
        ∃ repl ∈ userWallets s' userId, repl.isPrimary = true ∧
          repl.id ≠ walletId ∧
          ∀ u' ∈ s'.users, u'.id = userId → u'.stellarAddress = repl.address) := by
  refine ⟨?_, ?_, ?_⟩
  · intro u hlock hfind
    simp only [unlinkWallet, hlock, hfind]
  · intro u wallet hlock hfind hlen
    simp only [unlinkWallet, hlock, hfind]
    simp [hlen]
  · intro s' h wallet hwmem hwid hwprim
    obtain ⟨wallet₀, hfind, hlen, hch, hcase⟩ := unlinkWallet_ok h
    have hw0id : wallet₀.id = walletId := by
      simpa using List.find?_some hfind
    have hw0mem : wallet₀ ∈ userWallets s userId := List.mem_of_find?_eq_some hfind
    have hweq : wallet = wallet₀ :=
      wallet_id_inj hwf.2 (List.mem_filter.mp hwmem).1 (List.mem_filter.mp hw0mem).1
        (by rw [hwid, hw0id])
    rcases hcase with ⟨hnp, _, _⟩ | ⟨_, replacement, hrep, husers, hwallets⟩
    · rw [hweq, hnp] at hwprim
      exact absurd hwprim (by decide)
    · have hrmem_l : replacement ∈ userWallets s userId := List.mem_of_find?_eq_some hrep
      have hrne : replacement.id ≠ walletId := by
        have := List.find?_some hrep
        simpa using this
      have hrmem : replacement ∈ s.wallets := (List.mem_filter.mp hrmem_l).1
      have hruid : replacement.userId = userId := by
        have := (List.mem_filter.mp hrmem_l).2
        simpa using this
      refine ⟨?_, ?_⟩
      · intro w' hw'
        have hw's : w' ∈ s'.wallets := (List.mem_filter.mp hw').1
        rw [hwallets] at hw's
        have := (List.mem_filter.mp hw's).2
        simpa using this
      · refine ⟨{ replacement with isPrimary := true }, ?_, rfl, by simpa using hrne, ?_⟩
        · apply List.mem_filter.mpr
          refine ⟨?_, by simpa using hruid⟩
          rw [hwallets]
          apply List.mem_filter.mpr
          refine ⟨?_, by simpa using hrne⟩
          apply List.mem_map.mpr
          refine ⟨{ replacement with isPrimary := false }, ?_, by simp⟩
          apply List.mem_map.mpr
          exact ⟨replacement, hrmem, by simp [hruid]⟩
        · intro u' hu' hid
          rw [husers] at hu'
          obtain ⟨u₀, hu₀, hupd⟩ := List.mem_map.mp hu'
          by_cases h0 : (u₀.id == userId) = true
          · rw [if_pos h0] at hupd
            rw [← hupd]
          · rw [if_neg h0] at hupd
            rw [← hupd] at hid
            exact absurd hid (by simpa using h0)

/-- The unlink theorem applied to a concrete store: unlinking an
unknown wallet id fails with `NotFoundError`. -/
theorem unlinkWallet_error_and_replacement_witness :
    storeWF primaryStoreFixture ∧
    lockUserRow primaryStoreFixture "u1" = .ok primaryUserFixture ∧
    (userWallets primaryStoreFixture "u1").find? (fun w => w.id == "missing") =
      none ∧
    unlinkWallet primaryStoreFixture "u1" "missing" =
      .error (.notFound "Wallet not found") := by
  have hwf : storeWF primaryStoreFixture := ⟨by decide, by decide⟩
  have hlock : lockUserRow primaryStoreFixture "u1" = .ok primaryUserFixture := by
    rfl
  have hfind : (userWallets primaryStoreFixture "u1").find?
      (fun w => w.id == "missing") = none := by decide
  exact ⟨hwf, hlock, hfind,
    (unlinkWallet_error_and_replacement primaryStoreFixture "u1" "missing" hwf).1
      primaryUserFixture hlock hfind⟩

end StelloVault
